import Mathlib

/-!
# Storefront script (`js/script.js`): debounce, toast notifier, feature handlers and
initializers

A shallow embedding of the behaviour layer of the storefront page.  Time is a
natural number of milliseconds; a timer registered by `setTimeout` fires when the
clock reaches its due time, one callback at a time.  The initializers act on a
`Site`: the page together with the listeners they registered and the pending
intervals.
-/

namespace Debounce

/-- A pending `setTimeout(later, wait)` of one debounced function: the handle the
host returned, the time at which it is due, and the arguments captured by the
closure `later`. -/
structure Timer (α : Type) where
  id : Nat
  due : Nat
  args : α

/-- The state of one `debounce(func, wait)` instance and of the host around it:
the clock, the next timer handle of the host, the closure variable `timeout`
(`none` is `undefined`), the pending timers of this instance, and the record of
the calls made to `func` (time of the call and its arguments, oldest first). -/
structure State (α : Type) where
  now : Nat
  nextId : Nat
  timeout : Option Nat
  timers : List (Timer α)
  calls : List (Nat × α)

/-- A fresh instance as `debounce(func, wait)` returns it: `let timeout;`. -/
def fresh (α : Type) (now nextId : Nat) : State α :=
  { now := now, nextId := nextId, timeout := none, timers := [], calls := [] }

/-- The host's `clearTimeout(handle)`: drops the timer with that handle; a no-op for
`undefined` and for a handle that is no longer pending. -/
def clearTimeout {α : Type} (handle : Option Nat) (ts : List (Timer α)) : List (Timer α) :=
  match handle with
  | none => ts
  | some h => ts.filter (fun tm => tm.id != h)

/-- The closure `later`: `clearTimeout(timeout); func(...args);`. -/
def later {α : Type} (args : α) (s : State α) : State α :=
  { s with timers := clearTimeout s.timeout s.timers, calls := s.calls ++ [(s.now, args)] }

/-- The returned `executedFunction(...args)`:
`clearTimeout(timeout); timeout = setTimeout(later, wait);`. -/
def executedFunction {α : Type} (wait : Nat) (args : α) (s : State α) : State α :=
  { s with
    timers := clearTimeout s.timeout s.timers ++ [{ id := s.nextId, due := s.now + wait, args := args }]
    timeout := some s.nextId
    nextId := s.nextId + 1 }

/-- The pending timer that fires next when the clock runs up to `t`: the one with the
least due time among those due at or before `t`, the earliest registered on a tie. -/
def nextDue {α : Type} (t : Nat) : List (Timer α) → Option (Timer α)
  | [] => none
  | tm :: rest =>
    match nextDue t rest with
    | none => if tm.due ≤ t then some tm else none
    | some b => if tm.due ≤ t ∧ tm.due ≤ b.due then some tm else some b

/-- Fires the due timers one after the other until none is due at or before `t` (at
most `fuel` of them). The call is put on record at the timer's due time, the earliest
moment at which a host fires it. -/
def runTimers {α : Type} : Nat → Nat → State α → State α
  | 0, _, s => s
  | fuel + 1, t, s =>
    match nextDue t s.timers with
    | none => s
    | some tm =>
      runTimers fuel t
        (later tm.args
          { s with now := max s.now tm.due, timers := s.timers.filter (fun x => x.id != tm.id) })

/-- Lets the clock run up to `t`. A callback of this instance never registers a timer,
so the number of pending timers bounds the number of firings. -/
def advance {α : Type} (t : Nat) (s : State α) : State α :=
  let s1 := runTimers s.timers.length t s
  { s1 with now := max s1.now t }

/-- One invocation of the debounced function at time `t` with arguments `args`, on a
host whose event loop was free before it: the timers due by `t` have fired. -/
def invokeAt {α : Type} (wait : Nat) (s : State α) (inv : Nat × α) : State α :=
  executedFunction wait inv.2 (advance inv.1 s)

/-- A sequence of invocations, each given with its time, in the order they happen. -/
def run {α : Type} (wait : Nat) (s : State α) (invs : List (Nat × α)) : State α :=
  invs.foldl (invokeAt wait) s

/-- One invocation at time `t` made while the event loop has been busy since the
invocation before: the clock has moved on to `t`, but the host, which runs a timer only
when the loop is free, has run none, so a timer that was due is still pending. -/
def invokeBusy {α : Type} (wait : Nat) (s : State α) (inv : Nat × α) : State α :=
  executedFunction wait inv.2 { s with now := max s.now inv.1 }

/-- An invocation with what the host did before it: `idle` says whether the event loop
was free before the invocation, so that the timers due by then have fired. -/
structure Invocation (α : Type) where
  idle : Bool
  time : Nat
  args : α

/-- One invocation on a host that was idle or busy before it. -/
def invoke {α : Type} (wait : Nat) (s : State α) (inv : Invocation α) : State α :=
  if inv.idle then invokeAt wait s (inv.time, inv.args) else invokeBusy wait s (inv.time, inv.args)

/-- A sequence of invocations on such a host, in the order they happen. -/
def runHost {α : Type} (wait : Nat) (s : State α) (invs : List (Invocation α)) : State α :=
  invs.foldl (invoke wait) s

/-- The instance has just been invoked at time `t` with arguments `a`: the clock reads
`t`, `c` is the record of calls so far, and the only pending timer is the one this
invocation registered, held by `timeout`. -/
def Armed {α : Type} (wait : Nat) (s : State α) (t : Nat) (a : α) (c : List (Nat × α)) : Prop :=
  s.now = t ∧ s.calls = c ∧ ∃ h, s.timers = [{ id := h, due := t + wait, args := a }] ∧ s.timeout = some h

end Debounce

namespace Storefront

/-- An element of the page. `classList` is the class attribute as its list of tokens,
`dataset` the `data-*` attributes, `style` the inline style as property/value pairs,
`ancestors` the indices of the elements it lies in, the nearest first (used by
descendant selectors and by the propagation of a click), `attached` whether the element
is in the document. The page is kept as the flat sequence of its elements; `innerHTML`
keeps the string that was assigned, and the elements the host's HTML parser made of it
are elements of the page of their own (see `showToastMarkup`). -/
structure Element where
  tag : String := "div"
  idAttr : String := ""
  typeAttr : String := ""
  classList : List String := []
  dataset : List (String × String) := []
  ancestors : List Nat := []
  textContent : String := ""
  innerHTML : String := ""
  src : String := ""
  value : String := ""
  defaultValue : String := ""
  style : List (String × String) := []
  attached : Bool := true
  deriving DecidableEq, Repr

/-- What a pending timer of the page does when it fires. -/
inductive Action where
  /-- The 3000 ms callback of `showToast` for the toast at this index. -/
  | toastAutoDismiss (toast : Nat)
  /-- The 300 ms callback `() => toast.remove()` registered by the callback above. -/
  | toastRemove (toast : Nat)
  /-- The 200 ms callback of the add-to-cart listener: `cartBadge.style.transform = 'scale(1)'`. -/
  | badgeScaleBack (badge : Nat)
  /-- The 100 ms callback of a thumbnail click: `mainImage.style.opacity = '1'`. -/
  | imageFadeIn (image : Nat)
  deriving DecidableEq, Repr

/-- A pending `setTimeout` of the page. None of them is ever cleared. -/
structure Timer where
  due : Nat
  action : Action
  deriving DecidableEq, Repr

/-- A click listener registered by `initCart`; `badge` is the `cartBadge` the closure
captured (`none` is `null`). -/
inductive Listener where
  /-- The listener put on `#add-to-cart-btn`. -/
  | addToCart (badge : Option Nat)
  /-- The listener put on a product-card button whose text includes "Buy Now". -/
  | buyNow (badge : Option Nat)
  deriving DecidableEq, Repr

/-- The page: the clock, the elements in document order (an element is named by its
index; new elements are appended, none is ever dropped from the sequence), the pending
timers in the order they were registered, the global `cartCount`, the click listeners of
`initCart` in the order they were registered, each with the element it is on, the click
listeners `showToast` put on close buttons, each as the element it is on and the toast it
removes, and the elements that carry the click listener of `initWishlist`, which stops
the propagation of a click. The elements listed are those below `html` and `body`; the
two themselves are not among them, and a toast, which `showToast` appends to the body,
lies in none of the elements listed. -/
structure Page where
  now : Nat
  elems : List Element
  timers : List Timer
  cartCount : Nat
  listeners : List (Nat × Listener)
  closers : List (Nat × Nat) := []
  stoppers : List Nat := []
  deriving DecidableEq, Repr

/-- ASCII whitespace, which separates the tokens of a class attribute. -/
def isAsciiWhitespace (c : Char) : Bool :=
  c == ' ' || c == '\t' || c == '\n' || c == '\x0c' || c == '\r'

/-- Splits the characters of a class attribute into tokens; `cur` is the token being read. -/
def classTokensAux : List Char → List Char → List String
  | [], cur => if cur.isEmpty then [] else [String.mk cur]
  | c :: cs, cur =>
    if isAsciiWhitespace c then
      if cur.isEmpty then classTokensAux cs [] else String.mk cur :: classTokensAux cs []
    else classTokensAux cs (cur ++ [c])

/-- The tokens of a class attribute: what assigning `className` leaves in `classList`. -/
def classTokens (className : String) : List String :=
  classTokensAux className.data []

/-- `element.classList.contains(c)`; also whether the selector `.c` matches. -/
def hasClass (c : String) (e : Element) : Bool :=
  e.classList.contains c

/-- `element.classList.remove(c)`. -/
def classListRemove (c : String) (e : Element) : Element :=
  { e with classList := e.classList.filter (fun x => x != c) }

/-- `element.classList.add(c)`. -/
def classListAdd (c : String) (e : Element) : Element :=
  if e.classList.contains c then e else { e with classList := e.classList ++ [c] }

/-- Assigning one property of an inline style. -/
def setStyle (k v : String) (e : Element) : Element :=
  { e with style := e.style.filter (fun kv => kv.1 != k) ++ [(k, v)] }

/-- Reading one property of an inline style (the empty string when it is not set). -/
def getStyle (k : String) (e : Element) : String :=
  (e.style.lookup k).getD ""

/-- `element.remove()`: the element leaves the document (a no-op when it already has). -/
def detach (e : Element) : Element :=
  { e with attached := false }

/-- Applies `f` to the element at index `i` (nothing happens when there is none). -/
def Page.update (s : Page) (i : Nat) (f : Element → Element) : Page :=
  { s with elems := s.elems.modify f i }

/-- `node.remove()`: the element at index `i` and every element inside it leave the
document. -/
def Page.remove (s : Page) (i : Nat) : Page :=
  { s with
    elems := (s.elems.modify detach i).map
      (fun e => if e.ancestors.contains i then detach e else e) }

/-- The element at index `i` (an element with nothing set when there is none). -/
def Page.elem (s : Page) (i : Nat) : Element :=
  (s.elems[i]?).getD {}

/-- The page when the script has just been evaluated: the elements of the document,
no timer, no listener, and `let cartCount = 3`. -/
def Page.load (elems : List Element) : Page :=
  { now := 0, elems := elems, timers := [], cartCount := 3, listeners := [] }

/-- Whether the element at index `i` is in the document. -/
def Page.isAttached (s : Page) (i : Nat) : Bool :=
  match s.elems[i]? with
  | some e => e.attached
  | none => false

/-- Whether the element at index `i` is in the document and satisfies `p`. -/
def Page.selects (s : Page) (p : Element → Bool) (i : Nat) : Bool :=
  match s.elems[i]? with
  | some e => e.attached && p e
  | none => false

/-- The indices of the elements in the document that satisfy `p`, in document order:
`document.querySelectorAll` for a selector that `p` decides. -/
def Page.queryAll (s : Page) (p : Element → Bool) : List Nat :=
  (List.range s.elems.length).filter (s.selects p)

/-- The first match in document order: `document.querySelector`, `getElementById`. -/
def Page.query (s : Page) (p : Element → Bool) : Option Nat :=
  (s.queryAll p).head?

/-- The number of elements of class `toast` in the document. -/
def Page.toastCount (s : Page) : Nat :=
  (s.queryAll (hasClass "toast")).length

/-- The background `showToast` picks for a type. -/
def toastBackground (type : String) : String :=
  if type = "success" then "#00B517" else if type = "error" then "#FA3434" else "#0D6EFD"

/-- The div that `showToast(message, type)` builds: `className`, `innerHTML` and
`style.cssText` as the function assigns them, and in the document once appended. -/
def toastElement (message type : String) : Element :=
  { tag := "div"
    classList := classTokens ("toast toast-" ++ type)
    innerHTML := "\n        <span>" ++ message ++
      "</span>\n        <button class=\"toast-close\">&times;</button>\n    "
    style :=
      [("position", "fixed"), ("bottom", "20px"), ("right", "20px"),
       ("background", toastBackground type), ("color", "white"), ("padding", "16px 24px"),
       ("border-radius", "8px"), ("display", "flex"), ("align-items", "center"),
       ("gap", "12px"), ("box-shadow", "0 4px 16px rgba(0,0,0,0.15)"),
       ("z-index", "10000"), ("animation", "slideIn 0.3s ease")]
    attached := true }

/-- The function `showToast(message, type)` for a message that is text, as the
handlers of the page call it with their own words: removes the first element of class
`toast` in the document if there is one, appends the new toast to the body, and
registers the 3000 ms timer. The span and the close button of the template stay inside
`innerHTML`; `showToastMarkup` is the function for every message, with the elements of
the toast in the page. -/
def showToast (message type : String) (s : Page) : Page :=
  let s1 :=
    match s.query (hasClass "toast") with
    | some existingToast => s.update existingToast detach
    | none => s
  { s1 with
    elems := s1.elems ++ [toastElement message type]
    timers := s1.timers ++ [{ due := s1.now + 3000, action := .toastAutoDismiss s1.elems.length }] }

/-- The string `showToast` assigns to `toast.innerHTML`: the template around the
message. -/
def toastInnerHTML (message : String) : String :=
  "\n        <span>" ++ message ++
    "</span>\n        <button class=\"toast-close\">&times;</button>\n    "

/-- Puts the elements the parser made of a toast's `innerHTML` into the page, right
after the toast and inside it. `inner` lists them in document order, the `ancestors` of
each being the positions in `inner` of the elements it lies in, the nearest first. -/
def placeInner (toast : Nat) (inner : List Element) : List Element :=
  inner.map (fun e =>
    { e with ancestors := e.ancestors.map (fun k => toast + 1 + k) ++ [toast], attached := true })

/-- The function `showToast(message, type)`, the message being the markup it is put into
`innerHTML` as. `html` is the host's HTML parser: the elements it makes of a string
assigned to the `innerHTML` of a `div`. The first element of class `toast` in the
document is removed, the new toast is appended to the body with its elements, and
`toast.querySelector('.toast-close')` is looked up: the first element of that class in
the toast gets the click listener and the 3000 ms timer is registered; when there is
none the call throws at this point (see `showToastThrows`), and the page is left with
the toast appended, without listener and without timer. -/
def showToastMarkup (html : String → List Element) (message type : String) (s : Page) : Page :=
  let s1 :=
    match s.query (hasClass "toast") with
    | some existingToast => s.remove existingToast
    | none => s
  let toast := s1.elems.length
  let inner := placeInner toast (html (toastInnerHTML message))
  let s2 := { s1 with elems := s1.elems ++ toastElement message type :: inner }
  match inner.findIdx? (hasClass "toast-close") with
  | none => s2
  | some k =>
    { s2 with
      closers := s2.closers ++ [(toast + 1 + k, toast)]
      timers := s2.timers ++ [{ due := s2.now + 3000, action := .toastAutoDismiss toast }] }

/-- Whether `showToast(message, type)` throws: when the toast holds no element of class
`toast-close`, `toast.querySelector('.toast-close')` is `null` and the call of
`addEventListener` on it raises a TypeError. -/
def showToastThrows (html : String → List Element) (message : String) : Bool :=
  ((html (toastInnerHTML message)).findIdx? (hasClass "toast-close")).isNone

/-- The click listener `showToast` puts on the close button it found: `toast.remove()`. -/
def closeToast (toast : Nat) (s : Page) : Page :=
  s.remove toast

/-- The way of a click on `target` through the page when no listener stops it: the
target, then the elements it lies in, from the nearest outwards. -/
def Page.path (s : Page) (target : Nat) : List Nat :=
  target :: (s.elem target).ancestors

/-- The elements a click on `target` reaches, in the order it reaches them. The click
listener of `initWishlist` calls `e.stopPropagation()`, so the click goes no further than
the first element on its way that carries one (the listeners on that element itself all
run); no other listener of the script stops a click (`e.preventDefault()` does not). -/
def Page.clickPath (s : Page) (target : Nat) : List Nat :=
  match (s.path target).findIdx? (fun i => s.stoppers.contains i) with
  | some k => (s.path target).take (k + 1)
  | none => s.path target

/-- The toasts whose close listener a click on `target` runs, in the order they run. -/
def Page.closersOn (s : Page) (target : Nat) : List Nat :=
  (s.clickPath target).flatMap
    (fun i => (s.closers.filter (fun r => r.1 == i)).map (fun r => r.2))

/-- A click on the element `target`, as far as the toasts go: the close listeners on the
elements the click reaches run. -/
def closeClick (target : Nat) (s : Page) : Page :=
  (s.closersOn target).foldl (fun acc toast => closeToast toast acc) s

/-- Runs the callback of a timer that fires. -/
def fire (a : Action) (s : Page) : Page :=
  match a with
  | .toastAutoDismiss toast =>
    if s.isAttached toast then
      { s.update toast (setStyle "animation" "slideOut 0.3s ease forwards") with
        timers := s.timers ++ [{ due := s.now + 300, action := .toastRemove toast }] }
    else s
  | .toastRemove toast => s.remove toast
  | .badgeScaleBack badge => s.update badge (setStyle "transform" "scale(1)")
  | .imageFadeIn image => s.update image (setStyle "opacity" "1")

/-- Takes the timer that fires next out of the pending ones when the clock runs up to
`t`: the one with the least due time among those due at or before `t`, the earliest
registered on a tie. -/
def popDue (t : Nat) : List Timer → Option (Timer × List Timer)
  | [] => none
  | tm :: rest =>
    match popDue t rest with
    | none => if tm.due ≤ t then some (tm, rest) else none
    | some (b, others) => if tm.due ≤ b.due then some (tm, rest) else some (b, tm :: others)

/-- Fires the due timers one after the other until none is due at or before `t` (at most
`fuel` of them), on a host whose event loop is free: each callback runs with the clock at
the timer's due time, the earliest moment at which a host runs it. -/
def runTimers : Nat → Nat → Page → Page
  | 0, _, s => s
  | fuel + 1, t, s =>
    match popDue t s.timers with
    | none => s
    | some (tm, rest) =>
      runTimers fuel t (fire tm.action { s with now := max s.now tm.due, timers := rest })

/-- Lets the clock run up to `t`. Only the 3000 ms callback registers a timer, and that
timer registers none, so twice the number of pending timers bounds the firings. -/
def advance (t : Nat) (s : Page) : Page :=
  let s1 := runTimers (2 * s.timers.length) t s
  { s1 with now := max s1.now t }

/-- A bound on the firings a pending timer can cause: its own, and for the 3000 ms
callback also that of the 300 ms timer it registers. -/
def Action.weight : Action → Nat
  | .toastAutoDismiss _ => 2
  | _ => 1

/-- The bound summed over the pending timers. -/
def timersWeight (ts : List Timer) : Nat :=
  (ts.map (fun tm => tm.action.weight)).sum

/-- A page whose markup holds two elements of class `toast`. -/
def twoNoticesPage : Page :=
  Page.load
    [{ classList := ["toast"], textContent := "Free shipping this week" },
     { classList := ["toast", "toast-info"], textContent := "We use cookies" }]

/-- What can happen to the toasts of the page. -/
inductive ToastEvent where
  /-- A call `showToast(message, type)`, by whatever handler. -/
  | showToast (message type : String)
  /-- A click on the element at this index: a close button, an element inside one, or
  any other element. -/
  | click (target : Nat)
  /-- The clock runs up to this time and the timers due by then fire. -/
  | elapse (t : Nat)
  /-- The callback of one timer runs, at whatever time the host gets to it. -/
  | timer (a : Action)

/-- The effect of one event. -/
def ToastEvent.apply (html : String → List Element) (s : Page) : ToastEvent → Page
  | .showToast message type => showToastMarkup html message type s
  | .click target => closeClick target s
  | .elapse t => advance t s
  | .timer a => fire a s

/-- The effect of a sequence of events, in order. -/
def runToastEvents (html : String → List Element) (s : Page) (evs : List ToastEvent) : Page :=
  evs.foldl (ToastEvent.apply html) s

/-- What an HTML parser makes of the `innerHTML` of a toast, for three messages with
markup and for the messages without. In `<b class=toast>sale</b>` the `b` lies in the span
of the template. `<textarea>` is never closed, so the rest of the template, its button
included, is the text of the textarea. In `<button class="toast-close">undo</button>` the
button of the message comes before the one of the template. Any other message stands for
one without markup: the span and the button of the template. -/
def demoMarkup (innerHTML : String) : List Element :=
  if innerHTML = toastInnerHTML "<b class=toast>sale</b>" then
    [{ tag := "span", textContent := "sale" },
     { tag := "b", classList := ["toast"], ancestors := [0], textContent := "sale" },
     { tag := "button", classList := ["toast-close"], textContent := "×" }]
  else if innerHTML = toastInnerHTML "<textarea>" then
    [{ tag := "span",
       textContent := "</span>\n        <button class=\"toast-close\">×</button>\n    " },
     { tag := "textarea", ancestors := [0],
       textContent := "</span>\n        <button class=\"toast-close\">×</button>\n    " }]
  else if innerHTML = toastInnerHTML "<button class=\"toast-close\">undo</button>" then
    [{ tag := "span", textContent := "undo" },
     { tag := "button", classList := ["toast-close"], ancestors := [0], textContent := "undo" },
     { tag := "button", classList := ["toast-close"], textContent := "×" }]
  else
    [{ tag := "span" }, { tag := "button", classList := ["toast-close"], textContent := "×" }]

/-- The callback of `nodes.forEach(...)` applied to each element of a node list in turn. -/
def Page.forEach (s : Page) (nodes : List Nat) (f : Element → Element) : Page :=
  nodes.foldl (fun acc i => acc.update i f) s

/-- The two statements every selection listener runs on its group:
`group.forEach(b => b.classList.remove('active')); btn.classList.add('active');`. -/
def setActive (group : List Nat) (btn : Nat) (s : Page) : Page :=
  (s.forEach group (classListRemove "active")).update btn (classListAdd "active")

/-- A value read from `dataset` put into a template string (`undefined` when absent). -/
def jsString (v : Option String) : String :=
  v.getD "undefined"

/-- The click listener `initSizeSelector` puts on the size button `btn`. -/
def sizeClick (sizeBtns : List Nat) (btn : Nat) (s : Page) : Page :=
  let s1 := setActive sizeBtns btn s
  showToast ("Size selected: " ++ (s1.elem btn).textContent) "success" s1

/-- The click listener `initColorSelector` puts on the colour button `btn`. -/
def colorClick (colorBtns : List Nat) (btn : Nat) (s : Page) : Page :=
  let color := (s.elem btn).dataset.lookup "color"
  let s1 := setActive colorBtns btn s
  showToast ("Color selected: " ++ jsString color) "success" s1

/-- The click listener `initViewToggles` puts on the view button `btn`. -/
def viewClick (viewBtns : List Nat) (productsGrid : Nat) (btn : Nat) (s : Page) : Page :=
  let view := (s.elem btn).dataset.lookup "view"
  let s1 := setActive viewBtns btn s
  if view = some "list" then s1.update productsGrid (classListAdd "list-view")
  else s1.update productsGrid (classListRemove "list-view")

/-- The click listener `initImageGallery` puts on the thumbnail `thumb`. -/
def thumbClick (thumbnails : List Nat) (mainImage : Nat) (thumb : Nat) (s : Page) : Page :=
  let newImageSrc := (s.elem thumb).dataset.lookup "image"
  let s1 :=
    match newImageSrc with
    | some image =>
      if image ≠ "" then
        { s.update mainImage (fun e => setStyle "opacity" "0" { e with src := image }) with
          timers := s.timers ++ [{ due := s.now + 100, action := .imageFadeIn mainImage }] }
      else s
    | none => s
  setActive thumbnails thumb s1

/-- What the tab listener does to one tab content:
`content.classList.remove('active'); if (content.id === tabId) content.classList.add('active');`. -/
def showTabContent (tabId : Option String) (content : Element) : Element :=
  let c := classListRemove "active" content
  if some c.idAttr = tabId then classListAdd "active" c else c

/-- The click listener `initTabs` puts on the tab button `btn`. -/
def tabClick (tabBtns tabContents : List Nat) (btn : Nat) (s : Page) : Page :=
  let tabId := (s.elem btn).dataset.lookup "tab"
  let s1 := setActive tabBtns btn s
  s1.forEach tabContents (showTabContent tabId)

/-- The click listener `initPagination` puts on the page number `btn` (scrolling is not
part of the page state). -/
def pageClick (pageNums : List Nat) (btn : Nat) (s : Page) : Page :=
  let s1 := setActive pageNums btn s
  showToast ("Page " ++ (s1.elem btn).textContent ++ " selected") "info" s1

/-- The click listener `initHoverEffects` puts on the category item `item`. -/
def categoryItemClick (categoryItems : List Nat) (item : Nat) (s : Page) : Page :=
  setActive categoryItems item s

/-- The click listener `initCategorySidebar` puts on the category item `category`. -/
def categoryClick (categories : List Nat) (category : Nat) (s : Page) : Page :=
  let s1 := setActive categories category s
  showToast ("Category: " ++ (s1.elem category).textContent.trim) "info" s1

/-- After a click on `b`, the members of `group` that carry `active` are exactly `b`. -/
def OnlyActive (group : List Nat) (b : Nat) (s : Page) : Prop :=
  ∀ j ∈ group, (hasClass "active" (s.elem j) = true ↔ j = b)

/-- Whether `sub` occurs in the characters `cs`. -/
def includesChars (sub : List Char) : List Char → Bool
  | [] => sub.isEmpty
  | c :: cs => sub.isPrefixOf (c :: cs) || includesChars sub cs

/-- `str.includes(sub)`. -/
def includes (str sub : String) : Bool :=
  includesChars sub.data str.data

/-- Whether the element has an ancestor of class `c`: the left part of the descendant
selector `.c x`. -/
def Page.within (s : Page) (c : String) (e : Element) : Bool :=
  e.ancestors.any (fun a => hasClass c (s.elem a))

/-- `document.querySelectorAll('.product-card .view-btn, .product-card button')`. -/
def Page.cardButtons (s : Page) : List Nat :=
  s.queryAll (fun e => s.within "product-card" e && (hasClass "view-btn" e || e.tag == "button"))

/-- `element.addEventListener('click', listener)`. -/
def Page.addListener (s : Page) (target : Nat) (l : Listener) : Page :=
  { s with listeners := s.listeners ++ [(target, l)] }

/-- The function `initCart`. -/
def initCart (s : Page) : Page :=
  let addToCartBtn := s.query (fun e => e.idAttr == "add-to-cart-btn")
  let cartBadge := s.query (hasClass "cart-badge")
  let s1 :=
    match addToCartBtn with
    | some btn => s.addListener btn (.addToCart cartBadge)
    | none => s
  s.cardButtons.foldl
    (fun acc btn =>
      if includes (acc.elem btn).textContent "Buy Now" then acc.addListener btn (.buyNow cartBadge)
      else acc)
    s1

/-- `cartCount++`: the counter is a double, which holds every integer up to 2^53 and
adds 1 exactly below it; at 2^53 the sum is rounded back to 2^53, so the counter, which
starts at 3 and only ever goes up by 1, stays there. -/
def increment (n : Nat) : Nat :=
  if n < 9007199254740992 then n + 1 else n

/-- The body of a listener of `initCart`. Both count the item, write the count into the
badge if there is one and show the toast; the one on `#add-to-cart-btn` also scales the
badge and registers the 200 ms timer that scales it back. -/
def runListener (l : Listener) (s : Page) : Page :=
  match l with
  | .addToCart cartBadge =>
    let s1 := { s with cartCount := increment s.cartCount }
    let s2 :=
      match cartBadge with
      | some badge =>
        { s1.update badge
            (fun e => setStyle "transform" "scale(1.3)" { e with textContent := toString s1.cartCount }) with
          timers := s1.timers ++ [{ due := s1.now + 200, action := .badgeScaleBack badge }] }
      | none => s1
    showToast "Item added to cart!" "success" s2
  | .buyNow cartBadge =>
    let s1 := { s with cartCount := increment s.cartCount }
    let s2 :=
      match cartBadge with
      | some badge => s1.update badge (fun e => { e with textContent := toString s1.cartCount })
      | none => s1
    showToast "Item added to cart!" "success" s2

/-- The listeners registered on the element `target`, in the order of registration. -/
def Page.listenersOn (s : Page) (target : Nat) : List Listener :=
  (s.listeners.filter (fun r => r.1 == target)).map (fun r => r.2)

/-- The function `initWishlist`, as far as the way of a click through the page goes: each
element of class `wishlist-btn` gets a click listener that calls `e.stopPropagation()`.
What else that listener and the one on `#add-to-wishlist-btn` do (the class `active` of
the button, the fill of its icon, a toast) touches neither the counter nor the text or
the place of an element the page had. -/
def initWishlist (s : Page) : Page :=
  { s with stoppers := s.stoppers ++ s.queryAll (hasClass "wishlist-btn") }

/-- The listeners of `initCart` a click on `target` runs, in the order they run: those
on the target, then those on each element the click goes on to, each in the order of
registration. -/
def Page.clickListeners (s : Page) (target : Nat) : List Listener :=
  (s.clickPath target).flatMap (fun i => s.listenersOn i)

/-- A click on the element `target`, as far as the cart goes: the listeners of `initCart`
on the elements the click reaches run. -/
def click (target : Nat) (s : Page) : Page :=
  (s.clickListeners target).foldl (fun acc l => runListener l acc) s

/-- Whether `initCart` takes the element at `i` for a product-card "Buy Now" button. -/
def Page.isBuyNowButton (s : Page) (i : Nat) : Bool :=
  s.cardButtons.contains i && includes (s.elem i).textContent "Buy Now"

/-- Whether the element at `i` is the `#add-to-cart-btn` that `initCart` finds. -/
def Page.isAddToCartBtn (s : Page) (i : Nat) : Bool :=
  s.query (fun e => e.idAttr == "add-to-cart-btn") == some i

/-- Whether a JavaScript value that is a string or `undefined` is truthy. -/
def truthy (v : Option String) : Bool :=
  match v with
  | some str => str != ""
  | none => false

/-- The method call `recv.includes(sub)`, which throws when `recv` is `undefined`. -/
def includesMethod (recv : Option String) (sub : String) : Except String Bool :=
  match recv with
  | some str => .ok (includes str sub)
  | none => .error "TypeError: Cannot read properties of undefined (reading 'includes')"

/-- Whether `form.reset()` resets the element: a control inside the form. -/
def isControlOf (form : Nat) (e : Element) : Bool :=
  e.ancestors.contains form &&
    (e.tag == "input" || e.tag == "textarea" || e.tag == "select" || e.tag == "output")

/-- What `form.reset()` does to one element. -/
def resetControl (form : Nat) (e : Element) : Element :=
  if isControlOf form e then { e with value := e.defaultValue } else e

/-- `form.reset()`: every control of the form gets its default value back. -/
def formReset (form : Nat) (s : Page) : Page :=
  { s with elems := s.elems.map (resetControl form) }

/-- `newsletterForm.querySelector('input[type="email"]')`. -/
def Page.emailInput (s : Page) (form : Nat) : Option Nat :=
  s.query (fun e => e.tag == "input" && e.typeAttr == "email" && e.ancestors.contains form)

/-- The submit listener `initForms` puts on `#newsletter-form` (`e.preventDefault()`
changes nothing in the page). A thrown exception is `Except.error`. -/
def newsletterSubmit (newsletterForm : Nat) (s : Page) : Except String Page :=
  let email : Option String := (s.emailInput newsletterForm).map (fun i => (s.elem i).value)
  if truthy email then do
    let hasAt ← includesMethod email "@"
    if hasAt then
      pure (formReset newsletterForm (showToast "Thank you for subscribing!" "success" s))
    else
      pure (showToast "Please enter a valid email address" "error" s)
  else
    pure (showToast "Please enter a valid email address" "error" s)

/-- A JavaScript number as the countdown meets it: an integer (a time value in
milliseconds, a difference of two, a remainder or a quotient rounded down), or NaN. The
operations below compute with the integers themselves; on integers below 2^53 in size the
doubles of the script give the same results. -/
inductive JSNumber where
  | nan
  | int (v : Int)
  deriving DecidableEq, Repr

/-- `x - y`. -/
def JSNumber.sub : JSNumber → JSNumber → JSNumber
  | .int a, .int b => .int (a - b)
  | _, _ => .nan

/-- `x < y`, which is false when either side is NaN. -/
def JSNumber.lt : JSNumber → JSNumber → Bool
  | .int a, .int b => decide (a < b)
  | _, _ => false

/-- `x % c` for a non-zero constant `c`: the remainder takes the sign of `x`. -/
def JSNumber.mod : JSNumber → Int → JSNumber
  | .int a, c => .int (a.tmod c)
  | .nan, _ => .nan

/-- `Math.floor(x / c)` for a non-zero constant `c`. -/
def JSNumber.floorDiv : JSNumber → Int → JSNumber
  | .int a, c => .int (a.fdiv c)
  | .nan, _ => .nan

/-- `String(x)`. -/
def JSNumber.asString : JSNumber → String
  | .int v => toString v
  | .nan => "NaN"

/-- `str.padStart(targetLength, pad)` for a pad of one character. -/
def padStart (targetLength : Nat) (pad : Char) (str : String) : String :=
  String.mk (List.replicate (targetLength - str.length) pad) ++ str

/-- `new Date(value).getTime()` for the value of `dataset.target`: NaN when the attribute
is missing (`undefined` is an invalid date), else what the host's date parser gives. -/
def dateTime (parse : String → JSNumber) (value : Option String) : JSNumber :=
  match value with
  | none => .nan
  | some str => parse str

/-- Assigning `textContent`. -/
def setText (v : String) (e : Element) : Element :=
  { e with textContent := v }

/-- Assigning `textContent` to an element that may be `null` (`if (el) el.textContent = v`). -/
def Page.setTextIf (s : Page) (el : Option Nat) (v : String) : Page :=
  match el with
  | some i => s.update i (setText v)
  | none => s

/-- The function `updateCountdown` of `initCountdown`, for the `targetDate` the closure
holds and the reading `clock` of `new Date().getTime()`. -/
def updateCountdown (targetDate : JSNumber) (clock : Int) (s : Page) : Page :=
  let distance := targetDate.sub (.int clock)
  if distance.lt (.int 0) then
    s.forEach (s.queryAll (hasClass "countdown-value")) (setText "00")
  else
    let days := distance.floorDiv (1000 * 60 * 60 * 24)
    let hours := (distance.mod (1000 * 60 * 60 * 24)).floorDiv (1000 * 60 * 60)
    let minutes := (distance.mod (1000 * 60 * 60)).floorDiv (1000 * 60)
    let seconds := (distance.mod (1000 * 60)).floorDiv 1000
    let daysEl := s.query (fun e => e.idAttr == "days")
    let hoursEl := s.query (fun e => e.idAttr == "hours")
    let minutesEl := s.query (fun e => e.idAttr == "minutes")
    let secondsEl := s.query (fun e => e.idAttr == "seconds")
    let s1 := s.setTextIf daysEl (padStart 2 '0' days.asString)
    let s2 := s1.setTextIf hoursEl (padStart 2 '0' hours.asString)
    let s3 := s2.setTextIf minutesEl (padStart 2 '0' minutes.asString)
    s3.setTextIf secondsEl (padStart 2 '0' seconds.asString)

/-- A run of `updateCountdown` at each of the clock readings `clocks`, in order. -/
def runTicks (targetDate : JSNumber) (clocks : List Int) (s : Page) : Page :=
  clocks.foldl (fun acc clock => updateCountdown targetDate clock acc) s

/-- A page in mid-session: a notice of class `toast` that came with the markup, the cart
badge, and the badge's 200 ms timer still pending. -/
def demoPage : Page :=
  { now := 1000
    elems := [{ classList := ["toast"], textContent := "Welcome" },
              { tag := "span", classList := ["cart-badge"], textContent := "4" }]
    timers := [{ due := 1150, action := .badgeScaleBack 1 }]
    cartCount := 4
    listeners := [] }

/-- A page whose only tab button is marked up as a tab content as well:
`<button id="specs" class="tab-btn tab-content" data-tab="reviews">`. -/
def tabOverlapPage : Page :=
  Page.load
    [{ tag := "button", idAttr := "specs", classList := ["tab-btn", "tab-content"],
       dataset := [("tab", "reviews")] }]

/-- The `cartBadge` a listener of `initCart` captured. -/
def Listener.badge : Listener → Option Nat
  | .addToCart cartBadge => cartBadge
  | .buyNow cartBadge => cartBadge

/-- A sequence of clicks, each given by the element clicked, in order. -/
def clicks (targets : List Nat) (s : Page) : Page :=
  targets.foldl (fun acc target => click target acc) s

/-- A product page on which the add-to-cart button sits inside a product card and
reads "Buy Now":
`<div class="product-card"><button id="add-to-cart-btn">Buy Now</button></div>`
`<span class="cart-badge">3</span>`. -/
def doubleWiredPage : Page :=
  Page.load
    [{ classList := ["product-card"] },
     { tag := "button", idAttr := "add-to-cart-btn", ancestors := [0], textContent := "Buy Now" },
     { tag := "span", classList := ["cart-badge"], textContent := "3" }]

/-- A product page with the add-to-cart button outside the product cards, one card with
a "Buy Now" button, and the cart badge. -/
def shopPage : Page :=
  Page.load
    [{ tag := "button", idAttr := "add-to-cart-btn", textContent := "Add to cart" },
     { classList := ["product-card"] },
     { tag := "button", ancestors := [1], textContent := "Buy Now" },
     { tag := "span", classList := ["cart-badge"], textContent := "3" }]

/-- The page once `init` has run, as far as the cart goes: of the initializers `init`
runs, `initCart` alone registers a listener that counts and `initWishlist`, which runs
right after it, alone one that stops a click. `elems` is the document as `initCart` finds
it. -/
def Page.wired (elems : List Element) : Page :=
  initWishlist (initCart (Page.load elems))

/-- A product card whose link reads "Buy Now" and holds a label and a wishlist button:
`<div class="product-card"><a class="view-btn"><span>Buy Now</span>`
`<button class="wishlist-btn"></button></a></div><span class="cart-badge">3</span>`. -/
def cardPage : Page :=
  Page.load
    [{ classList := ["product-card"] },
     { tag := "a", classList := ["view-btn"], ancestors := [0], textContent := "Buy Now" },
     { tag := "span", ancestors := [1, 0], textContent := "Buy Now" },
     { tag := "button", classList := ["wishlist-btn"], ancestors := [1, 0] },
     { tag := "span", classList := ["cart-badge"], textContent := "3" }]

/-- A page with the newsletter form, its email field holding `email`, and a second
field of the form holding a name. -/
def newsletterPage (email : String) : Page :=
  Page.load
    [{ tag := "form", idAttr := "newsletter-form" },
     { tag := "input", typeAttr := "email", ancestors := [0], value := email },
     { tag := "input", typeAttr := "text", ancestors := [0], value := "Ada", defaultValue := "" }]

/-- A page with the countdown block as the script expects it: the root without a
`data-target` attribute, and the four fields with the text the markup gives them. -/
def countdownPage : Page :=
  Page.load
    [{ idAttr := "countdown-timer" },
     { tag := "span", idAttr := "days", classList := ["countdown-value"], textContent := "04" },
     { tag := "span", idAttr := "hours", classList := ["countdown-value"], textContent := "13" },
     { tag := "span", idAttr := "minutes", classList := ["countdown-value"], textContent := "34" },
     { tag := "span", idAttr := "seconds", classList := ["countdown-value"], textContent := "56" }]

/-- The ids of the four fields `updateCountdown` writes while the target lies ahead. -/
def countdownFieldIds : List String :=
  ["days", "hours", "minutes", "seconds"]

/-- What a listener is registered on: an element of the page, or `document`. -/
inductive EventTarget where
  | element (i : Nat)
  | document
  deriving DecidableEq, Repr

/-- The function a registration of `initSearchBar`, `initViewToggles`, `initImageGallery`,
`initTabs` or `initMobileMenu` holds, with the variables its closure captured. -/
inductive Handler where
  /-- `performSearch`, put on `#search-btn` for `click`. -/
  | performSearch (searchInput : Nat) (categorySelect : Option Nat)
  /-- The `keypress` listener of `#search-input`: `performSearch()` when the key is Enter. -/
  | searchKeypress (searchInput : Nat) (categorySelect : Option Nat)
  /-- The `input` listener of `#search-input`: the function `debounce(..., 300)` returned. -/
  | searchSuggest
  /-- The click listener of a view button; its body is `viewClick`. -/
  | viewClick (viewBtns : List Nat) (productsGrid : Nat) (btn : Nat)
  /-- The click listener of a thumbnail; its body is `thumbClick`. -/
  | thumbClick (thumbnails : List Nat) (mainImage : Nat) (thumb : Nat)
  /-- The click listener of a tab button; its body is `tabClick`. -/
  | tabClick (tabBtns tabContents : List Nat) (btn : Nat)
  /-- The click listener of `#mobile-menu-btn`, which opens the menu. -/
  | openMobileMenu (mobileMenu : Nat) (mobileOverlay : Option Nat)
  /-- The function `closeMobileMenu`, put on `#mobile-menu-close` and `#mobile-overlay`. -/
  | closeMobileMenu (mobileMenu : Nat) (mobileOverlay : Option Nat)
  /-- The `keydown` listener of `document`: `closeMobileMenu()` on Escape while the menu is open. -/
  | escapeKey (mobileMenu : Nat) (mobileOverlay : Option Nat)
  /-- The click listener of a link of the mobile menu: `closeMobileMenu()`. -/
  | navLinkClick (mobileMenu : Nat) (mobileOverlay : Option Nat)
  deriving DecidableEq, Repr

/-- One `target.addEventListener(event, handler)` that took effect. -/
structure Registration where
  target : EventTarget
  event : String
  handler : Handler
  deriving DecidableEq, Repr

/-- A pending `setInterval(updateCountdown, delay)`: the page time at which it was set,
the delay, and the `targetDate` the closure of `updateCountdown` holds. It is never
cleared. -/
structure Interval where
  start : Nat
  delay : Nat
  targetDate : JSNumber
  deriving DecidableEq, Repr

/-- The whole state the initializers below work on: the page, the listeners registered
by them in the order of registration, and the pending intervals in the order they were
set. -/
structure Site where
  page : Page
  registrations : List Registration
  intervals : List Interval
  deriving DecidableEq, Repr

/-- What the host gives the countdown: its date parser, and the reading of
`new Date().getTime()` at page time 0 (page time runs in milliseconds). -/
structure Host where
  parse : String → JSNumber
  epoch : Int

/-- The reading of `new Date().getTime()` at page time `t`. -/
def Host.clock (host : Host) (t : Nat) : Int :=
  host.epoch + t

/-- The state when the script has just been evaluated. -/
def Site.load (elems : List Element) : Site :=
  { page := Page.load elems, registrations := [], intervals := [] }

/-- `target.addEventListener(event, handler)`. Every run of an initializer makes its
functions anew, so no registration is dropped as a repetition of an earlier one. -/
def Site.addEventListener (s : Site) (target : EventTarget) (event : String)
    (handler : Handler) : Site :=
  { s with registrations := s.registrations ++ [{ target := target, event := event, handler := handler }] }

/-- The state when the clock has moved on to `t` and nothing has run since. -/
def Site.atTime (s : Site) (t : Nat) : Site :=
  { s with page := { s.page with now := max s.page.now t } }

/-- The function `initCountdown`. -/
def initCountdown (host : Host) (s : Site) : Site :=
  match s.page.query (fun e => e.idAttr == "countdown-timer") with
  | none => s
  | some countdownTimer =>
    let targetDate := dateTime host.parse ((s.page.elem countdownTimer).dataset.lookup "target")
    let s1 := { s with page := updateCountdown targetDate (host.clock s.page.now) s.page }
    { s1 with
      intervals := s1.intervals ++ [{ start := s1.page.now, delay := 1000, targetDate := targetDate }] }

/-- The function `initSearchBar`. -/
def initSearchBar (s : Site) : Site :=
  let searchInput := s.page.query (fun e => e.idAttr == "search-input")
  let searchBtn := s.page.query (fun e => e.idAttr == "search-btn")
  let categorySelect := s.page.query (fun e => e.idAttr == "category-select")
  match searchInput, searchBtn with
  | some searchInput, some searchBtn =>
    let s1 := s.addEventListener (.element searchBtn) "click"
      (.performSearch searchInput categorySelect)
    let s2 := s1.addEventListener (.element searchInput) "keypress"
      (.searchKeypress searchInput categorySelect)
    s2.addEventListener (.element searchInput) "input" .searchSuggest
  | _, _ => s

/-- The function `initViewToggles`. -/
def initViewToggles (s : Site) : Site :=
  let viewBtns := s.page.queryAll (fun e => s.page.within "view-toggles" e && hasClass "view-btn" e)
  let productsGrid := s.page.query (fun e => e.idAttr == "products-grid")
  match viewBtns, productsGrid with
  | _ :: _, some productsGrid =>
    viewBtns.foldl
      (fun acc btn =>
        acc.addEventListener (.element btn) "click" (.viewClick viewBtns productsGrid btn))
      s
  | _, _ => s

/-- The function `initImageGallery`. -/
def initImageGallery (s : Site) : Site :=
  let mainImage := s.page.query (fun e => e.idAttr == "main-product-image")
  let thumbnails := s.page.queryAll (hasClass "thumbnail")
  match mainImage, thumbnails with
  | some mainImage, _ :: _ =>
    thumbnails.foldl
      (fun acc thumb =>
        acc.addEventListener (.element thumb) "click" (.thumbClick thumbnails mainImage thumb))
      s
  | _, _ => s

/-- The function `initTabs`. -/
def initTabs (s : Site) : Site :=
  let tabBtns := s.page.queryAll (hasClass "tab-btn")
  let tabContents := s.page.queryAll (hasClass "tab-content")
  match tabBtns, tabContents with
  | _ :: _, _ :: _ =>
    tabBtns.foldl
      (fun acc btn => acc.addEventListener (.element btn) "click" (.tabClick tabBtns tabContents btn))
      s
  | _, _ => s

/-- The function `initMobileMenu`. -/
def initMobileMenu (s : Site) : Site :=
  let mobileMenuBtn := s.page.query (fun e => e.idAttr == "mobile-menu-btn")
  let mobileMenu := s.page.query (fun e => e.idAttr == "mobile-menu")
  let mobileMenuClose := s.page.query (fun e => e.idAttr == "mobile-menu-close")
  let mobileOverlay := s.page.query (fun e => e.idAttr == "mobile-overlay")
  match mobileMenuBtn, mobileMenu with
  | some mobileMenuBtn, some mobileMenu =>
    let s1 := s.addEventListener (.element mobileMenuBtn) "click"
      (.openMobileMenu mobileMenu mobileOverlay)
    let s2 :=
      match mobileMenuClose with
      | some close => s1.addEventListener (.element close) "click"
          (.closeMobileMenu mobileMenu mobileOverlay)
      | none => s1
    let s3 :=
      match mobileOverlay with
      | some overlay => s2.addEventListener (.element overlay) "click"
          (.closeMobileMenu mobileMenu mobileOverlay)
      | none => s2
    let s4 := s3.addEventListener .document "keydown" (.escapeKey mobileMenu mobileOverlay)
    let mobileNavLinks := s.page.queryAll (fun e => s.page.within "mobile-menu-nav" e && e.tag == "a")
    mobileNavLinks.foldl
      (fun acc link =>
        acc.addEventListener (.element link) "click" (.navLinkClick mobileMenu mobileOverlay))
      s4
  | _, _ => s

/-- Whether the callback of the interval runs at page time `t`: it does at
`start + delay`, `start + 2 * delay`, and so on. -/
def Interval.firesAt (iv : Interval) (t : Nat) : Bool :=
  decide (iv.start < t) && (t - iv.start) % iv.delay == 0

/-- The runs of `updateCountdown` at page time `t`, each given by the `targetDate` of its
closure: one for every pending interval that fires then, in the order they were set. -/
def Site.countdownRuns (s : Site) (t : Nat) : List JSNumber :=
  (s.intervals.filter (fun iv => iv.firesAt t)).map (fun iv => iv.targetDate)

/-- The page after the runs of `updateCountdown` at page time `t`. -/
def Site.tick (host : Host) (t : Nat) (s : Site) : Page :=
  (s.countdownRuns t).foldl (fun acc targetDate => updateCountdown targetDate (host.clock t) acc)
    s.page

/-- No element in the document satisfies `p`: the element a lookup by `p` asks for is
absent. -/
def Page.Lacks (s : Page) (p : Element → Bool) : Prop :=
  ∀ e ∈ s.elems, (e.attached && p e) = false

/-- What a second run of the initializer `f` does after a first run from `s`: it leaves
the page as the first run left it, and registers once more every listener and every
interval the first run registered; so two runs end in the state of one exactly when one
run changes nothing. -/
def SecondRunRepeats (f : Site → Site) (s : Site) : Prop :=
  (f (f s)).page = (f s).page ∧
  (f (f s)).registrations
    = (f s).registrations ++ (f s).registrations.drop s.registrations.length ∧
  (f (f s)).intervals = (f s).intervals ++ (f s).intervals.drop s.intervals.length ∧
  (f (f s) = f s ↔ f s = s)

/-- The number a string of decimal digits is the numeral of. -/
def decimalValue (str : String) : Nat :=
  str.data.foldl (fun acc c => 10 * acc + (c.toNat - '0'.toNat)) 0

/-- A host whose date parser knows one instant, and whose clock stood at
2023-11-14T22:13:20Z when the page loaded. -/
def demoHost : Host :=
  { parse := fun str => if str = "2023-11-15T00:15:24Z" then .int 1700007324000 else .nan
    epoch := 1700000000000 }

/-- A page with the countdown block and a target that parses. -/
def salePage : Page :=
  Page.load
    [{ idAttr := "countdown-timer", dataset := [("target", "2023-11-15T00:15:24Z")] },
     { tag := "span", idAttr := "days", classList := ["countdown-value"], textContent := "04" },
     { tag := "span", idAttr := "hours", classList := ["countdown-value"], textContent := "13" },
     { tag := "span", idAttr := "minutes", classList := ["countdown-value"], textContent := "34" },
     { tag := "span", idAttr := "seconds", classList := ["countdown-value"], textContent := "56" }]

end Storefront
namespace Debounce

theorem advance_idle {α : Type} (t : Nat) (s : State α) (h : s.timers = []) :
    advance t s = { s with now := max s.now t } := by
  simp [advance, h, runTimers]

theorem advance_armed_early {α : Type} (wait t u : Nat) (a : α) (c : List (Nat × α))
    (s : State α) (h : Armed wait s t a c) (hu : u < t + wait) :
    advance u s = { s with now := max s.now u } := by
  obtain ⟨_, _, k, hk, _⟩ := h
  have hn : ¬ (t + wait ≤ u) := by omega
  simp [advance, hk, runTimers, nextDue, hn]

theorem advance_armed_late {α : Type} (wait t u : Nat) (a : α) (c : List (Nat × α))
    (s : State α) (h : Armed wait s t a c) (hu : t + wait ≤ u) :
    advance u s = { s with now := u, timers := [], calls := c ++ [(t + wait, a)] } := by
  obtain ⟨hnow, hc, k, hk, hto⟩ := h
  have h1 : max (max s.now (t + wait)) u = u := by omega
  have h2 : max s.now (t + wait) = t + wait := by omega
  simp [advance, hk, runTimers, nextDue, hu, later, clearTimeout, hto, hc, h1, h2]

theorem executedFunction_armed {α : Type} (wait : Nat) (a : α) (s : State α)
    (h : s.timers = [] ∨ ∃ tm, s.timers = [tm] ∧ s.timeout = some tm.id) :
    Armed wait (executedFunction wait a s) s.now a s.calls := by
  refine ⟨rfl, rfl, s.nextId, ?_, rfl⟩
  rcases h with h | ⟨tm, h, hto⟩
  · cases hs : s.timeout <;> simp [executedFunction, clearTimeout, h, hs]
  · simp [executedFunction, clearTimeout, h, hto]

/-- An invocation that comes before the pending timer is due supersedes it: nothing is
called, and only the new timer is pending. -/
theorem invokeAt_supersedes {α : Type} (wait t : Nat) (a : α) (c : List (Nat × α))
    (s : State α) (h : Armed wait s t a c) (p : Nat × α) (h1 : t ≤ p.1) (h2 : p.1 < t + wait) :
    Armed wait (invokeAt wait s p) p.1 p.2 c := by
  have hadv := advance_armed_early wait t p.1 a c s h h2
  obtain ⟨hnow, hc, k, hk, hto⟩ := h
  have hm : max s.now p.1 = p.1 := by omega
  have := executedFunction_armed wait p.2 ({ s with now := max s.now p.1 } : State α)
    (Or.inr ⟨_, hk, hto⟩)
  simpa [invokeAt, hadv, hm, hc] using this

/-- An invocation that comes after the pending timer was due finds it fired: the call is
on record, made at the timer's due time with the arguments of its own invocation. -/
theorem invokeAt_after_fire {α : Type} (wait t : Nat) (a : α) (c : List (Nat × α))
    (s : State α) (h : Armed wait s t a c) (p : Nat × α) (h1 : t + wait ≤ p.1) :
    Armed wait (invokeAt wait s p) p.1 p.2 (c ++ [(t + wait, a)]) := by
  have hadv := advance_armed_late wait t p.1 a c s h h1
  have := executedFunction_armed wait p.2
    ({ s with now := p.1, timers := [], calls := c ++ [(t + wait, a)] } : State α) (Or.inl rfl)
  simpa [invokeAt, hadv] using this

theorem invokeAt_fresh {α : Type} (wait now0 id0 : Nat) (p : Nat × α) (h : now0 ≤ p.1) :
    Armed wait (invokeAt wait (fresh α now0 id0) p) p.1 p.2 [] := by
  have hadv := advance_idle p.1 (fresh α now0 id0) rfl
  have hm : max now0 p.1 = p.1 := by omega
  have := executedFunction_armed wait p.2
    ({ fresh α now0 id0 with now := max (fresh α now0 id0).now p.1 } : State α) (Or.inl rfl)
  rw [invokeAt, hadv]
  simpa [fresh, hm] using this

theorem run_burst {α : Type} (wait : Nat) (rest : List (Nat × α)) :
    ∀ (p : Nat × α) (c : List (Nat × α)) (s : State α), Armed wait s p.1 p.2 c →
      List.Chain (fun x y => x.1 ≤ y.1 ∧ y.1 < x.1 + wait) p rest →
      Armed wait (run wait s rest) ((p :: rest).getLast (List.cons_ne_nil _ _)).1
        ((p :: rest).getLast (List.cons_ne_nil _ _)).2 c := by
  induction rest with
  | nil => intro p c s h _; simpa [run] using h
  | cons q rest ih =>
    intro p c s h hch
    rw [List.chain_cons] at hch
    have hq := invokeAt_supersedes wait p.1 p.2 c s h q hch.1.1 hch.1.2
    have := ih q c (invokeAt wait s q) hq hch.2
    simpa [run, List.getLast_cons] using this

theorem run_spaced {α : Type} (wait : Nat) (rest : List (Nat × α)) :
    ∀ (p : Nat × α) (c : List (Nat × α)) (s : State α), Armed wait s p.1 p.2 c →
      List.Chain (fun x y => x.1 + wait < y.1) p rest →
      Armed wait (run wait s rest) ((p :: rest).getLast (List.cons_ne_nil _ _)).1
        ((p :: rest).getLast (List.cons_ne_nil _ _)).2
        (c ++ ((p :: rest).dropLast).map (fun x => (x.1 + wait, x.2))) := by
  induction rest with
  | nil => intro p c s h _; simpa [run] using h
  | cons q rest ih =>
    intro p c s h hch
    rw [List.chain_cons] at hch
    have hq := invokeAt_after_fire wait p.1 p.2 c s h q (Nat.le_of_lt hch.1)
    have := ih q _ (invokeAt wait s q) hq hch.2
    simpa [run, List.getLast_cons, List.dropLast] using this

/-- C1: a burst of one or more invocations, each after the first coming less than `wait`
after the one before it, makes `func` run exactly once: nothing is on record before
`wait` has passed since the last invocation, and from then on the record holds the single
call made at that time with the arguments of the last invocation. The first invocation
needs no pending timer (`timeout` is still `undefined`). -/
theorem debounce_burst_calls_last_once {α : Type} (wait now0 id0 : Nat)
    (invs : List (Nat × α)) (hne : invs ≠ []) (hstart : now0 ≤ (invs.head hne).1)
    (hburst : invs.Chain' (fun x y => x.1 ≤ y.1 ∧ y.1 < x.1 + wait)) (T : Nat) :
    (advance T (run wait (fresh α now0 id0) invs)).calls =
      if T < (invs.getLast hne).1 + wait then []
      else [((invs.getLast hne).1 + wait, (invs.getLast hne).2)] := by
  cases invs with
  | nil => exact absurd rfl hne
  | cons p rest =>
    have h0 := invokeAt_fresh wait now0 id0 p (by simpa using hstart)
    have h1 := run_burst wait rest p [] _ h0 (by simpa [List.Chain'] using hburst)
    have hrun : run wait (fresh α now0 id0) (p :: rest)
        = run wait (invokeAt wait (fresh α now0 id0) p) rest := by simp [run]
    rw [hrun]
    by_cases hT : T < ((p :: rest).getLast hne).1 + wait
    · rw [advance_armed_early wait _ T _ _ _ h1 hT, if_pos hT]
      exact h1.2.1
    · rw [advance_armed_late wait _ T _ _ _ h1 (Nat.le_of_not_lt hT), if_neg hT]
      simp

theorem debounce_burst_calls_last_once_witness :
    (advance 1000 (run 300 (fresh String 0 1) [(0, "a"), (100, "b"), (399, "c")])).calls
      = [(699, "c")] := by
  have h := debounce_burst_calls_last_once 300 0 1 [(0, "a"), (100, "b"), (399, "c")]
    (by simp) (by simp) (by simp [List.Chain']) 1000
  simpa using h

/-- On a host that is idle before every invocation: when every invocation comes more
than `wait` after the one before it, `func` runs once per invocation, in the order of the
invocations, each call on record at its due time with that invocation's arguments. -/
theorem run_spaced_calls {α : Type} (wait now0 id0 : Nat)
    (invs : List (Nat × α)) (hstart : ∀ p ∈ invs.head?, now0 ≤ p.1)
    (hspaced : invs.Chain' (fun x y => x.1 + wait < y.1))
    (T : Nat) (hT : ∀ p ∈ invs.getLast?, p.1 + wait ≤ T) :
    (advance T (run wait (fresh α now0 id0) invs)).calls
      = invs.map (fun x => (x.1 + wait, x.2)) := by
  cases invs with
  | nil => simp [run, advance, fresh, runTimers]
  | cons p rest =>
    have h0 := invokeAt_fresh wait now0 id0 p (by simpa using hstart)
    have h1 := run_spaced wait rest p [] _ h0 (by simpa [List.Chain'] using hspaced)
    have hrun : run wait (fresh α now0 id0) (p :: rest)
        = run wait (invokeAt wait (fresh α now0 id0) p) rest := by simp [run]
    have hl : ((p :: rest).getLast (List.cons_ne_nil _ _)).1 + wait ≤ T :=
      hT _ (List.getLast?_eq_getLast _ _ ▸ rfl)
    rw [hrun, advance_armed_late wait _ T _ _ _ h1 hl]
    have hsplit := List.dropLast_append_getLast (List.cons_ne_nil p rest)
    calc ([] ++ ((p :: rest).dropLast).map (fun x => (x.1 + wait, x.2)))
          ++ [(((p :: rest).getLast (List.cons_ne_nil _ _)).1 + wait,
                ((p :: rest).getLast (List.cons_ne_nil _ _)).2)]
        = ((p :: rest).dropLast ++ [(p :: rest).getLast (List.cons_ne_nil _ _)]).map
            (fun x => (x.1 + wait, x.2)) := by simp
      _ = (p :: rest).map (fun x => (x.1 + wait, x.2)) := by rw [hsplit]

theorem invoke_fresh {α : Type} (wait now0 id0 : Nat) (p : Invocation α) :
    invoke wait (fresh α now0 id0) p = invokeAt wait (fresh α now0 id0) (p.time, p.args) := by
  unfold invoke
  split
  · rfl
  · rw [invokeAt, advance_idle p.time (fresh α now0 id0) rfl]
    rfl

theorem runHost_idle {α : Type} (wait : Nat) (invs : List (Invocation α)) :
    ∀ s : State α, (∀ p ∈ invs, p.idle = true) →
      runHost wait s invs = run wait s (invs.map (fun p => (p.time, p.args))) := by
  induction invs with
  | nil => intro s _; rfl
  | cons p rest ih =>
    intro s h
    have hp : p.idle = true := h p (List.mem_cons_self _ _)
    have hstep : invoke wait s p = invokeAt wait s (p.time, p.args) := by simp [invoke, hp]
    simp only [runHost, run, List.foldl_cons, List.map_cons, hstep]
    exact ih _ (fun q hq => h q (List.mem_cons_of_mem _ hq))

/-- C2, as the code has it: when every invocation comes more than `wait` after the one
before it and, before each invocation after the first, the event loop was free so that
the host ran the timer that was due, `func` runs once per invocation, in the order of
the invocations, each call with the arguments of its own invocation. -/
theorem debounce_spaced_calls_each {α : Type} (wait now0 id0 : Nat)
    (invs : List (Invocation α)) (hstart : ∀ p ∈ invs.head?, now0 ≤ p.time)
    (hspaced : invs.Chain' (fun x y => x.time + wait < y.time))
    (hidle : ∀ p ∈ invs.tail, p.idle = true)
    (T : Nat) (hT : ∀ p ∈ invs.getLast?, p.time + wait ≤ T) :
    (advance T (runHost wait (fresh α now0 id0) invs)).calls.map (fun c => c.2)
      = invs.map (fun p => p.args) := by
  cases invs with
  | nil => simp [runHost, advance, fresh, runTimers]
  | cons p rest =>
    have h1 : runHost wait (fresh α now0 id0) (p :: rest)
        = run wait (fresh α now0 id0) ((p :: rest).map (fun q => (q.time, q.args))) := by
      have hr := runHost_idle wait rest (invoke wait (fresh α now0 id0) p)
        (by simpa using hidle)
      simp only [runHost, List.foldl_cons] at hr ⊢
      rw [hr, invoke_fresh]
      rfl
    have h2 := run_spaced_calls wait now0 id0 ((p :: rest).map (fun q => (q.time, q.args)))
      (by simpa using hstart)
      (by
        rw [List.chain'_map]
        exact hspaced)
      T
      (by
        intro q hq
        rw [List.getLast?_map] at hq
        obtain ⟨r, hr, rfl⟩ := Option.mem_map.1 hq
        exact hT r hr)
    rw [h1, h2]
    simp [List.map_map, Function.comp]

theorem debounce_spaced_calls_each_witness :
    (advance 5000 (runHost 300 (fresh String 0 1)
        [{ idle := false, time := 0, args := "a" }, { idle := true, time := 301, args := "b" },
         { idle := true, time := 602, args := "c" }])).calls.map (fun c => c.2)
      = ["a", "b", "c"] := by
  have h := debounce_spaced_calls_each 300 0 1
    [{ idle := false, time := 0, args := "a" }, { idle := true, time := 301, args := "b" },
     { idle := true, time := 602, args := "c" }]
    (by simp) (by simp [List.Chain']) (by simp) 5000 (by simp)
  simpa using h

/-- C2 fails when the event loop is busy between two invocations: with `wait = 20`, an
invocation with "a" at time 0 and one with "b" at time 30 in the same task, the timer of
the first is due at 20 but has not fired when the second invocation clears it, and
`func` runs once, with "b". -/
theorem debounce_busy_host_drops_call :
    (advance 1000 (runHost 20 (fresh String 0 1)
        [{ idle := true, time := 0, args := "a" }, { idle := false, time := 30, args := "b" }])).calls
      = [(50, "b")] := by
  decide

end Debounce

namespace Storefront

theorem selects_lt {s : Page} {p : Element → Bool} {i : Nat} (h : s.selects p i = true) :
    i < s.elems.length := by
  unfold Page.selects at h
  cases hi : s.elems[i]? with
  | none => simp [hi] at h
  | some e => exact (List.getElem?_eq_some.1 hi).1

theorem mem_queryAll {s : Page} {p : Element → Bool} {i : Nat} :
    i ∈ s.queryAll p ↔ s.selects p i = true := by
  simp only [Page.queryAll, List.mem_filter, List.mem_range]
  exact ⟨fun h => h.2, fun h => ⟨selects_lt h, h⟩⟩

theorem queryAll_nodup (s : Page) (p : Element → Bool) : (s.queryAll p).Nodup :=
  (List.nodup_range _).filter _

theorem selects_update (s : Page) (p : Element → Bool) (i j : Nat) (f : Element → Element) :
    (s.update i f).selects p j =
      if i = j then (match s.elems[j]? with
        | some e => (f e).attached && p (f e)
        | none => false)
      else s.selects p j := by
  unfold Page.selects Page.update
  simp only [List.getElem?_modify]
  cases s.elems[j]? <;> by_cases h : i = j <;> simp [h]

/-- An update that keeps the classes and the attachment of the element keeps every
query by class. -/
theorem queryAll_update_keep (s : Page) (c : String) (i : Nat) (f : Element → Element)
    (hf : ∀ e, (f e).attached = e.attached ∧ (f e).classList = e.classList) :
    (s.update i f).queryAll (hasClass c) = s.queryAll (hasClass c) := by
  unfold Page.queryAll
  have hlen : (s.update i f).elems.length = s.elems.length := by simp [Page.update]
  rw [hlen]
  apply List.filter_congr
  intro j _
  rw [selects_update]
  by_cases h : i = j
  · subst h
    unfold Page.selects
    cases s.elems[i]? with
    | none => simp
    | some e => simp [hasClass, (hf e).1, (hf e).2]
  · simp [h]

theorem toast_mem_classTokens (type : String) : "toast" ∈ classTokens ("toast toast-" ++ type) := by
  have h : ("toast toast-" ++ type).data
      = 't' :: 'o' :: 'a' :: 's' :: 't' :: ' ' :: ("toast-" ++ type).data := by
    simp [String.data_append]
  simp [classTokens, h, classTokensAux, isAsciiWhitespace]

theorem toastElement_selected (message type : String) :
    ((toastElement message type).attached && hasClass "toast" (toastElement message type)) = true := by
  have := toast_mem_classTokens type
  simp [toastElement, hasClass, this]

theorem length_le_one_cases {α : Type} (l : List α) (h : l.length ≤ 1) :
    l = [] ∨ ∃ a, l = [a] := by
  match l, h with
  | [], _ => exact Or.inl rfl
  | [a], _ => exact Or.inr ⟨a, rfl⟩
  | _ :: _ :: _, h => simp at h

theorem elem_update (s : Page) (i j : Nat) (f : Element → Element) :
    (s.update i f).elem j = if i = j ∧ j < s.elems.length then f (s.elem j) else s.elem j := by
  unfold Page.elem Page.update
  simp only [List.getElem?_modify]
  by_cases hj : j < s.elems.length
  · rw [List.getElem?_eq_getElem hj]
    by_cases h : i = j <;> simp [h, hj]
  · rw [List.getElem?_eq_none (Nat.le_of_not_lt hj)]
    simp [hj]

theorem update_elems_length (s : Page) (i : Nat) (f : Element → Element) :
    (s.update i f).elems.length = s.elems.length := by
  simp [Page.update]

theorem update_fixed_of_getElem (s : Page) (i : Nat) (f : Element → Element)
    (h : ∀ e, s.elems[i]? = some e → f e = e) : s.update i f = s := by
  have hl : s.elems.modify f i = s.elems := by
    apply List.ext_getElem?
    intro m
    rw [List.getElem?_modify]
    by_cases him : i = m
    · subst him
      cases he : s.elems[i]? with
      | none => rfl
      | some e => simp [h e he]
    · cases s.elems[m]? <;> simp [him]
  unfold Page.update
  rw [hl]

theorem update_fixed (s : Page) (i : Nat) (f : Element → Element)
    (h : f (s.elem i) = s.elem i) : s.update i f = s := by
  apply update_fixed_of_getElem
  intro e he
  have : s.elem i = e := by simp [Page.elem, he]
  rw [this] at h
  exact h

theorem remove_elems_length (s : Page) (i : Nat) : (s.remove i).elems.length = s.elems.length := by
  simp [Page.remove]

/-- What `remove` does to each element: the one removed and the ones inside it are out
of the document, the others are as they were. -/
theorem remove_getElem (s : Page) (i j : Nat) :
    (s.remove i).elems[j]?
      = (s.elems[j]?).map (fun e => if j = i ∨ e.ancestors.contains i = true then detach e else e) := by
  simp only [Page.remove, List.getElem?_map, List.getElem?_modify]
  cases s.elems[j]? with
  | none => rfl
  | some e =>
    by_cases hji : i = j
    · subst hji
      by_cases hc : e.ancestors.contains i = true <;> simp [hc, detach]
    · have hij : ¬ j = i := fun h => hji h.symm
      by_cases hc : e.ancestors.contains i = true <;> simp [hji, hij, hc, detach]

theorem selects_remove (s : Page) (p : Element → Bool) (i j : Nat) :
    (s.remove i).selects p j
      = (s.selects p j && (j != i && !(s.elem j).ancestors.contains i)) := by
  unfold Page.selects Page.elem
  rw [remove_getElem]
  cases s.elems[j]? with
  | none => rfl
  | some e =>
    by_cases hji : j = i
    · simp [hji, detach]
    · by_cases hc : i ∈ e.ancestors
      · simp [hji, hc, detach]
      · simp [hji, hc]

theorem queryAll_remove (s : Page) (p : Element → Bool) (i : Nat) :
    (s.remove i).queryAll p
      = (s.queryAll p).filter (fun j => j != i && !(s.elem j).ancestors.contains i) := by
  unfold Page.queryAll
  rw [List.filter_filter, remove_elems_length]
  apply List.filter_congr
  intro j _
  rw [selects_remove, Bool.and_comm]

theorem toastCount_remove_le (s : Page) (i : Nat) : (s.remove i).toastCount ≤ s.toastCount := by
  unfold Page.toastCount
  rw [queryAll_remove]
  exact List.length_filter_le _ _

theorem queryAll_congr_elems (s s2 : Page) (p : Element → Bool) (h : s2.elems = s.elems) :
    s2.queryAll p = s.queryAll p := by
  unfold Page.queryAll Page.selects
  rw [h]

/-- Appending an element that a selector matches, followed by elements it does not
match, adds the index of that element to the matches. -/
theorem queryAll_append_cons (s : Page) (p : Element → Bool) (e0 : Element) (inner : List Element)
    (h0 : (e0.attached && p e0) = true) (hin : ∀ e ∈ inner, (e.attached && p e) = false) :
    ({ s with elems := s.elems ++ e0 :: inner } : Page).queryAll p
      = s.queryAll p ++ [s.elems.length] := by
  unfold Page.queryAll
  simp only [List.length_append, List.length_cons]
  have hr : List.range (s.elems.length + (inner.length + 1))
      = List.range s.elems.length ++
        (List.range (inner.length + 1)).map (fun k => s.elems.length + k) := by
    rw [List.range_add]
  rw [hr, List.filter_append]
  congr 1
  · apply List.filter_congr
    intro j hj
    have hj2 : j < s.elems.length := List.mem_range.1 hj
    simp [Page.selects, List.getElem?_append_left hj2]
  · rw [List.range_succ_eq_map, List.map_cons, List.filter_cons]
    have hsel0 : ({ s with elems := s.elems ++ e0 :: inner } : Page).selects p (s.elems.length + 0)
        = true := by
      have hg : (s.elems ++ e0 :: inner)[s.elems.length + 0]? = some e0 := by
        rw [List.getElem?_append_right (by omega)]
        simp
      simp only [Page.selects, hg]
      exact h0
    rw [hsel0, if_pos rfl]
    simp only [Nat.add_zero, List.cons.injEq, true_and]
    rw [List.filter_eq_nil_iff]
    intro j hj
    simp only [List.mem_map, List.mem_range] at hj
    obtain ⟨k, ⟨m, hm, rfl⟩, rfl⟩ := hj
    have hget : (s.elems ++ e0 :: inner)[s.elems.length + (m + 1)]? = inner[m]? := by
      rw [List.getElem?_append_right (by omega)]
      have : s.elems.length + (m + 1) - s.elems.length = m + 1 := by omega
      rw [this]
      exact List.getElem?_cons_succ
    simp only [Page.selects, hget]
    rw [List.getElem?_eq_getElem hm]
    simp [hin _ (List.getElem_mem hm)]

theorem hasClass_placeInner (c : String) (toast : Nat) (inner : List Element) :
    ∀ e ∈ placeInner toast inner, ∃ e0 ∈ inner, hasClass c e = hasClass c e0 := by
  intro e he
  simp only [placeInner, List.mem_map] at he
  obtain ⟨e0, he0, rfl⟩ := he
  exact ⟨e0, he0, rfl⟩

theorem placeInner_not_toast (toast : Nat) (inner : List Element)
    (h : ∀ e ∈ inner, hasClass "toast" e = false) :
    ∀ e ∈ placeInner toast inner, (e.attached && hasClass "toast" e) = false := by
  intro e he
  obtain ⟨e0, he0, hc⟩ := hasClass_placeInner "toast" toast inner e he
  rw [hc, h e0 he0]
  simp

/-- The page `showToastMarkup` builds before it looks for the close button. -/
theorem showToastMarkup_elems (html : String → List Element) (message type : String) (s : Page) :
    (showToastMarkup html message type s).elems
      = (match s.query (hasClass "toast") with
          | some existingToast => s.remove existingToast
          | none => s).elems
        ++ toastElement message type ::
          placeInner s.elems.length (html (toastInnerHTML message)) := by
  unfold showToastMarkup
  cases s.query (hasClass "toast") with
  | none =>
    simp only
    split <;> rfl
  | some i =>
    simp only [remove_elems_length]
    split <;> rfl

theorem showToastMarkup_elems_length (html : String → List Element) (message type : String)
    (s : Page) :
    (showToastMarkup html message type s).elems.length
      = s.elems.length + 1 + (html (toastInnerHTML message)).length := by
  rw [showToastMarkup_elems]
  cases s.query (hasClass "toast") <;>
    simp [remove_elems_length, placeInner] <;> omega

theorem showToastMarkup_getElem_new (html : String → List Element) (message type : String)
    (s : Page) :
    (showToastMarkup html message type s).elems[s.elems.length]? = some (toastElement message type) := by
  rw [showToastMarkup_elems]
  cases s.query (hasClass "toast") with
  | none =>
    show (s.elems ++ _)[s.elems.length]? = _
    rw [List.getElem?_append_right (Nat.le_refl _)]
    simp
  | some i =>
    show ((s.remove i).elems ++ _)[s.elems.length]? = _
    rw [List.getElem?_append_right (Nat.le_of_eq (remove_elems_length s i))]
    simp [remove_elems_length]

/-- After `showToastMarkup` the new toast is the only element of class `toast` in the
document, when there was at most one before and the markup of the message makes none. -/
theorem showToastMarkup_queryAll (html : String → List Element) (message type : String)
    (s : Page) (h : s.toastCount ≤ 1)
    (hm : ∀ e ∈ html (toastInnerHTML message), hasClass "toast" e = false) :
    (showToastMarkup html message type s).queryAll (hasClass "toast") = [s.elems.length] := by
  have hplaced := placeInner_not_toast s.elems.length _ hm
  unfold Page.toastCount at h
  cases hq : s.query (hasClass "toast") with
  | none =>
    have h0 : s.queryAll (hasClass "toast") = [] := by
      unfold Page.query at hq
      cases hl : s.queryAll (hasClass "toast") with
      | nil => rfl
      | cons a l => simp [hl] at hq
    have := queryAll_append_cons s (hasClass "toast") (toastElement message type) _
      (toastElement_selected message type) hplaced
    rw [h0, List.nil_append] at this
    rw [← this]
    apply queryAll_congr_elems
    rw [showToastMarkup_elems, hq]
  | some i =>
    have h1 : s.queryAll (hasClass "toast") = [i] := by
      unfold Page.query at hq
      rcases length_le_one_cases _ h with h0 | ⟨a, ha⟩
      · simp [h0] at hq
      · simp only [ha, List.head?_cons, Option.some.injEq] at hq
        rw [ha, hq]
    have hrem : (s.remove i).queryAll (hasClass "toast") = [] := by
      rw [queryAll_remove, h1]
      simp
    have := queryAll_append_cons (s.remove i) (hasClass "toast") (toastElement message type) _
      (toastElement_selected message type) (placeInner_not_toast (s.remove i).elems.length _ hm)
    rw [hrem, remove_elems_length, List.nil_append] at this
    rw [← this]
    apply queryAll_congr_elems
    rw [showToastMarkup_elems, hq]

theorem toastCount_showToastMarkup (html : String → List Element) (message type : String)
    (s : Page) (h : s.toastCount ≤ 1)
    (hm : ∀ e ∈ html (toastInnerHTML message), hasClass "toast" e = false) :
    (showToastMarkup html message type s).toastCount = 1 := by
  unfold Page.toastCount
  rw [showToastMarkup_queryAll html message type s h hm]
  rfl

theorem toastCount_update_setStyle (s : Page) (i : Nat) (k v : String) :
    (s.update i (setStyle k v)).toastCount = s.toastCount := by
  unfold Page.toastCount
  rw [queryAll_update_keep s "toast" i (setStyle k v) (fun e => ⟨rfl, rfl⟩)]

theorem toastCount_fire_le (a : Action) (s : Page) : (fire a s).toastCount ≤ s.toastCount := by
  cases a with
  | toastAutoDismiss i =>
    simp only [fire]
    split
    · exact Nat.le_of_eq (toastCount_update_setStyle s i _ _)
    · exact Nat.le_refl _
  | toastRemove i => exact toastCount_remove_le s i
  | badgeScaleBack i => exact Nat.le_of_eq (toastCount_update_setStyle s i _ _)
  | imageFadeIn i => exact Nat.le_of_eq (toastCount_update_setStyle s i _ _)

theorem toastCount_runTimers_le (fuel t : Nat) :
    ∀ s : Page, (runTimers fuel t s).toastCount ≤ s.toastCount := by
  induction fuel with
  | zero => intro s; exact Nat.le_refl _
  | succ n ih =>
    intro s
    unfold runTimers
    cases popDue t s.timers with
    | none => exact Nat.le_refl _
    | some r =>
      obtain ⟨tm, rest⟩ := r
      exact Nat.le_trans (ih _) (toastCount_fire_le _ _)

theorem toastCount_advance_le (t : Nat) (s : Page) : (advance t s).toastCount ≤ s.toastCount :=
  toastCount_runTimers_le _ t s

theorem toastCount_foldl_closeToast (toasts : List Nat) : ∀ s : Page,
    (toasts.foldl (fun acc toast => closeToast toast acc) s).toastCount ≤ s.toastCount := by
  induction toasts with
  | nil => intro s; exact Nat.le_refl _
  | cons a l ih =>
    intro s
    exact Nat.le_trans (ih _) (toastCount_remove_le s a)

theorem toastCount_closeClick_le (target : Nat) (s : Page) :
    (closeClick target s).toastCount ≤ s.toastCount :=
  toastCount_foldl_closeToast _ s

theorem toastCount_apply_le_one (html : String → List Element) (s : Page) (ev : ToastEvent)
    (h : s.toastCount ≤ 1)
    (hm : ∀ message type, ev = .showToast message type →
      ∀ e ∈ html (toastInnerHTML message), hasClass "toast" e = false) :
    (ev.apply html s).toastCount ≤ 1 := by
  cases ev with
  | showToast message type =>
    exact Nat.le_of_eq (toastCount_showToastMarkup html message type s h (hm message type rfl))
  | click target => exact Nat.le_trans (toastCount_closeClick_le target s) h
  | elapse t => exact Nat.le_trans (toastCount_advance_le t s) h
  | timer a => exact Nat.le_trans (toastCount_fire_le a s) h

theorem toastCount_runToastEvents_le_one (html : String → List Element) (evs : List ToastEvent) :
    ∀ s : Page, s.toastCount ≤ 1 →
      (∀ message type, ToastEvent.showToast message type ∈ evs →
        ∀ e ∈ html (toastInnerHTML message), hasClass "toast" e = false) →
      (runToastEvents html s evs).toastCount ≤ 1 := by
  induction evs with
  | nil => intro s h _; exact h
  | cons ev evs ih =>
    intro s h hm
    exact ih _
      (toastCount_apply_le_one html s ev h
        (fun message type he => hm message type (he ▸ List.mem_cons_self _ _)))
      (fun message type hmem => hm message type (List.mem_cons_of_mem _ hmem))

theorem popDue_none {t : Nat} : ∀ {ts : List Timer}, popDue t ts = none → ∀ x ∈ ts, t < x.due := by
  intro ts
  induction ts with
  | nil => intro _ x hx; cases hx
  | cons tm rest ih =>
    intro h x hx
    unfold popDue at h
    cases hr : popDue t rest with
    | none =>
      rw [hr] at h
      simp only at h
      split at h
      · cases h
      · rcases List.mem_cons.1 hx with rfl | hx
        · omega
        · exact ih hr x hx
    | some r =>
      obtain ⟨b, others⟩ := r
      rw [hr] at h
      simp only at h
      split at h <;> cases h

theorem popDue_some {t : Nat} : ∀ {ts : List Timer} {tm : Timer} {rest : List Timer},
    popDue t ts = some (tm, rest) →
      ts.Perm (tm :: rest) ∧ tm.due ≤ t ∧ ∀ x ∈ ts, x.due ≤ t → tm.due ≤ x.due := by
  intro ts
  induction ts with
  | nil => intro tm rest h; cases h
  | cons a l ih =>
    intro tm rest h
    unfold popDue at h
    cases hr : popDue t l with
    | none =>
      rw [hr] at h
      simp only at h
      split at h
      · rename_i ha
        cases h
        refine ⟨List.Perm.refl _, ha, ?_⟩
        intro x hx hxt
        rcases List.mem_cons.1 hx with rfl | hx
        · exact Nat.le_refl _
        · have := popDue_none hr x hx
          omega
      · cases h
    | some r =>
      obtain ⟨b, others⟩ := r
      rw [hr] at h
      obtain ⟨hp, hb, hmin⟩ := ih hr
      simp only at h
      split at h
      · rename_i ha
        cases h
        refine ⟨List.Perm.refl _, Nat.le_trans ha hb, ?_⟩
        intro x hx hxt
        rcases List.mem_cons.1 hx with rfl | hx
        · exact Nat.le_refl _
        · exact Nat.le_trans ha (hmin x hx hxt)
      · rename_i ha
        cases h
        refine ⟨?_, hb, ?_⟩
        · exact (List.Perm.cons a hp).trans (List.Perm.swap _ _ _)
        · intro x hx hxt
          rcases List.mem_cons.1 hx with rfl | hx
          · omega
          · exact hmin x hx hxt

theorem timersWeight_perm {l1 l2 : List Timer} (h : l1.Perm l2) :
    timersWeight l1 = timersWeight l2 :=
  (h.map _).sum_eq

theorem timersWeight_le (ts : List Timer) : timersWeight ts ≤ 2 * ts.length := by
  induction ts with
  | nil => simp [timersWeight]
  | cons tm rest ih =>
    have : tm.action.weight ≤ 2 := by cases tm.action <;> simp [Action.weight]
    simp only [timersWeight, List.map_cons, List.sum_cons, List.length_cons] at ih ⊢
    omega

theorem timersWeight_fire (a : Action) (s : Page) :
    timersWeight (fire a s).timers + 1 ≤ timersWeight s.timers + a.weight := by
  cases a with
  | toastAutoDismiss i =>
    simp only [fire]
    split
    · simp [timersWeight, Action.weight]
    · simp [Action.weight]
  | toastRemove i => simp [fire, Page.remove, Action.weight]
  | badgeScaleBack i => simp [fire, Page.update, Action.weight]
  | imageFadeIn i => simp [fire, Page.update, Action.weight]

/-- With fuel for every firing the pending timers can cause, `runTimers` stops only
when no timer is due at or before `t`. -/
theorem runTimers_done (t : Nat) : ∀ (fuel : Nat) (s : Page), timersWeight s.timers ≤ fuel →
    popDue t (runTimers fuel t s).timers = none := by
  intro fuel
  induction fuel with
  | zero =>
    intro s h
    simp only [runTimers]
    cases hp : popDue t s.timers with
    | none => rfl
    | some r =>
      obtain ⟨tm, rest⟩ := r
      have hw := timersWeight_perm (popDue_some hp).1
      have : 1 ≤ tm.action.weight := by cases tm.action <;> simp [Action.weight]
      simp only [timersWeight, List.map_cons, List.sum_cons] at hw h
      omega
  | succ n ih =>
    intro s h
    unfold runTimers
    cases hp : popDue t s.timers with
    | none => simpa using hp
    | some r =>
      obtain ⟨tm, rest⟩ := r
      simp only
      apply ih
      have hw := timersWeight_perm (popDue_some hp).1
      have hf := timersWeight_fire tm.action { s with now := max s.now tm.due, timers := rest }
      simp only [timersWeight, List.map_cons, List.sum_cons] at hw h hf ⊢
      omega

/-- The fuel `advance` gives is enough: when it returns, no pending timer is due at or
before `t`. -/
theorem advance_done (t : Nat) (s : Page) : ∀ x ∈ (advance t s).timers, t < x.due :=
  popDue_none (runTimers_done t _ s (timersWeight_le _))

/-- C3, as the code has it: the message goes into the toast as markup, so the count holds
for messages whose markup makes no element of class `toast`. From a page with at most one
element of class `toast`, every sequence of `showToast` calls with such messages, clicks
(on a close button or on any other element) and timer firings (all that are due by some
time, or one callback at whatever time) leaves at most one such element in the document; and two `showToast` calls in a row leave exactly one, the element
built by the second call, with the tokens of `toast toast-<type>` as its classes and the
second message in its markup. `html` is the host's HTML parser. The page lists the
elements below `body`; `html` and `body` themselves are taken not to carry the class. -/
theorem toast_at_most_one (html : String → List Element) (s : Page) (h : s.toastCount ≤ 1) :
    (∀ evs : List ToastEvent,
      (∀ message type, ToastEvent.showToast message type ∈ evs →
        ∀ e ∈ html (toastInnerHTML message), hasClass "toast" e = false) →
      (runToastEvents html s evs).toastCount ≤ 1) ∧
    (∀ m1 t1 m2 t2 : String,
      (∀ e ∈ html (toastInnerHTML m1), hasClass "toast" e = false) →
      (∀ e ∈ html (toastInnerHTML m2), hasClass "toast" e = false) →
      (showToastMarkup html m2 t2 (showToastMarkup html m1 t1 s)).toastCount = 1 ∧
      (showToastMarkup html m2 t2 (showToastMarkup html m1 t1 s)).queryAll (hasClass "toast")
        = [s.elems.length + 1 + (html (toastInnerHTML m1)).length] ∧
      (showToastMarkup html m2 t2 (showToastMarkup html m1 t1 s)).elems[
          s.elems.length + 1 + (html (toastInnerHTML m1)).length]?
        = some (toastElement m2 t2) ∧
      (toastElement m2 t2).classList = classTokens ("toast toast-" ++ t2) ∧
      "toast" ∈ (toastElement m2 t2).classList) := by
  refine ⟨fun evs hm => toastCount_runToastEvents_le_one html evs s h hm,
    fun m1 t1 m2 t2 h1 h2 => ?_⟩
  have hc : (showToastMarkup html m1 t1 s).toastCount ≤ 1 :=
    Nat.le_of_eq (toastCount_showToastMarkup html m1 t1 s h h1)
  have hl := showToastMarkup_elems_length html m1 t1 s
  refine ⟨toastCount_showToastMarkup html m2 t2 _ hc h2, ?_, ?_, rfl, toast_mem_classTokens t2⟩
  · rw [showToastMarkup_queryAll html m2 t2 _ hc h2, hl]
  · rw [← hl]
    exact showToastMarkup_getElem_new html m2 t2 _

theorem toast_at_most_one_witness :
    demoPage.toastCount ≤ 1 ∧
    (runToastEvents demoMarkup demoPage
      [.showToast "Item added to cart!" "success", .elapse 2000, .showToast "Next page" "info",
       .timer (.toastAutoDismiss 2), .click 7, .elapse 9000]).toastCount ≤ 1 :=
  ⟨by decide,
    (toast_at_most_one demoMarkup demoPage (by decide)).1 _ (by
      intro message type hmem
      simp only [List.mem_cons, ToastEvent.showToast.injEq, List.mem_singleton,
        List.not_mem_nil, or_false, reduceCtorEq, false_or] at hmem
      rcases hmem with ⟨rfl, _⟩ | ⟨rfl, _⟩ <;> decide)⟩

/-- C3 fails for a message whose markup holds an element of class `toast`: on the empty
page `showToast('<b class=toast>sale</b>', 'info')` leaves two elements of that class in the
document, the toast and the `b` inside it; and called after another `showToast`, which it
removes the toast of, it leaves two as well. -/
theorem toast_markup_makes_second_toast :
    (Page.load []).toastCount ≤ 1 ∧
    (runToastEvents demoMarkup (Page.load [])
      [.showToast "<b class=toast>sale</b>" "info"]).queryAll (hasClass "toast") = [0, 2] ∧
    (runToastEvents demoMarkup (Page.load [])
      [.showToast "<b class=toast>sale</b>" "info"]).toastCount = 2 ∧
    (showToastMarkup demoMarkup "<b class=toast>sale</b>" "info"
      (showToastMarkup demoMarkup "Next page" "info" (Page.load []))).toastCount = 2 := by
  decide

/-- C4 evaluated at `showToast('<textarea>', 'info')` on the empty page, and at
`showToast('Next page', 'info')` on a page with two elements of class `toast`. In the first
the textarea takes the button of the template as its text, no element of class
`toast-close` is in the toast, the call throws once the toast is in the document, and no
timer is registered: the toast is in the document at 3300 ms and at any later time. In
the second the first of the two elements is removed and the other is still in the document
when the new toast has gone. On the empty page a message without markup gives the toast
the life the comments describe: shown until 3000 ms, leaving from then, gone at 3300 ms. -/
theorem toast_without_close_button_stays :
    showToastThrows demoMarkup "<textarea>" = true ∧
    (showToastMarkup demoMarkup "<textarea>" "info" (Page.load [])).isAttached 0 = true ∧
    (showToastMarkup demoMarkup "<textarea>" "info" (Page.load [])).timers = [] ∧
    (showToastMarkup demoMarkup "<textarea>" "info" (Page.load [])).closers = [] ∧
    (advance 3300 (showToastMarkup demoMarkup "<textarea>" "info" (Page.load []))).isAttached 0
      = true ∧
    (advance 86400000 (showToastMarkup demoMarkup "<textarea>" "info" (Page.load []))).toastCount
      = 1 ∧
    (advance 3300 (showToastMarkup demoMarkup "Next page" "info" twoNoticesPage)).isAttached 2
      = false ∧
    (advance 3300 (showToastMarkup demoMarkup "Next page" "info" twoNoticesPage)).queryAll
      (hasClass "toast") = [1] ∧
    showToastThrows demoMarkup "Next page" = false ∧
    (advance 2999 (showToastMarkup demoMarkup "Next page" "info" (Page.load []))).isAttached 0
      = true ∧
    getStyle "animation"
      ((advance 2999 (showToastMarkup demoMarkup "Next page" "info" (Page.load []))).elem 0)
      = "slideIn 0.3s ease" ∧
    (advance 3000 (showToastMarkup demoMarkup "Next page" "info" (Page.load []))).isAttached 0
      = true ∧
    getStyle "animation"
      ((advance 3000 (showToastMarkup demoMarkup "Next page" "info" (Page.load []))).elem 0)
      = "slideOut 0.3s ease forwards" ∧
    (advance 3299 (showToastMarkup demoMarkup "Next page" "info" (Page.load []))).isAttached 0
      = true ∧
    (advance 3300 (showToastMarkup demoMarkup "Next page" "info" (Page.load []))).toastCount
      = 0 := by
  decide

/-- C5 evaluated at `showToast('<button class="toast-close">undo</button>', 'info')` on the
empty page, followed by a click on the close button of the template. The toast is element
0, the span 1, the button of the message 2 and the button of the template 3. The listener
that removes the toast is on the first element of class `toast-close` in the toast, the
button of the message: a click on the button of the template runs no listener and leaves
the page as it is, the toast in the document; a click on the button of the message removes
the toast. Once the toast is removed, its 3000 ms timer leaves every element as it is and
registers nothing. -/
theorem toast_close_button_without_listener :
    (showToastMarkup demoMarkup "<button class=\"toast-close\">undo</button>" "info"
      (Page.load [])).closers = [(2, 0)] ∧
    (showToastMarkup demoMarkup "<button class=\"toast-close\">undo</button>" "info"
      (Page.load [])).clickPath 3 = [3, 0] ∧
    closeClick 3 (showToastMarkup demoMarkup "<button class=\"toast-close\">undo</button>" "info"
        (Page.load []))
      = showToastMarkup demoMarkup "<button class=\"toast-close\">undo</button>" "info"
        (Page.load []) ∧
    (closeClick 3 (showToastMarkup demoMarkup "<button class=\"toast-close\">undo</button>" "info"
      (Page.load []))).isAttached 0 = true ∧
    (closeClick 2 (showToastMarkup demoMarkup "<button class=\"toast-close\">undo</button>" "info"
      (Page.load []))).isAttached 0 = false ∧
    (advance 5000 (closeClick 2 (showToastMarkup demoMarkup
      "<button class=\"toast-close\">undo</button>" "info" (Page.load [])))).elems
      = (closeClick 2 (showToastMarkup demoMarkup
        "<button class=\"toast-close\">undo</button>" "info" (Page.load []))).elems ∧
    (advance 5000 (closeClick 2 (showToastMarkup demoMarkup
      "<button class=\"toast-close\">undo</button>" "info" (Page.load [])))).timers = [] := by
  decide

theorem showToast_getElem_new (message type : String) (s : Page) :
    (showToast message type s).elems[s.elems.length]? = some (toastElement message type) := by
  unfold showToast
  cases s.query (hasClass "toast") <;> simp [Page.update]

theorem forEach_elems_length (nodes : List Nat) (f : Element → Element) : ∀ s : Page,
    (s.forEach nodes f).elems.length = s.elems.length := by
  induction nodes with
  | nil => intro s; rfl
  | cons i rest ih =>
    intro s
    have := ih (s.update i f)
    simpa [Page.forEach, update_elems_length] using this

theorem forEach_elem_not_mem (nodes : List Nat) (f : Element → Element) (j : Nat)
    (hj : j ∉ nodes) : ∀ s : Page, (s.forEach nodes f).elem j = s.elem j := by
  induction nodes with
  | nil => intro s; rfl
  | cons i rest ih =>
    intro s
    have h1 : j ∉ rest := fun h => hj (List.mem_cons_of_mem _ h)
    have h2 : i ≠ j := fun h => hj (h ▸ List.mem_cons_self _ _)
    have := ih h1 (s.update i f)
    rw [elem_update, if_neg (fun h => h2 h.1)] at this
    simpa [Page.forEach] using this

theorem hasClass_classListRemove_self (c : String) (e : Element) :
    hasClass c (classListRemove c e) = false := by
  simp [hasClass, classListRemove]

theorem hasClass_classListAdd_self (c : String) (e : Element) :
    hasClass c (classListAdd c e) = true := by
  unfold classListAdd
  split
  · rename_i h; simpa [hasClass] using h
  · simp [hasClass]

theorem hasClass_classListRemove_ne (c d : String) (e : Element) (hcd : c ≠ d) :
    hasClass c (classListRemove d e) = hasClass c e := by
  simp [hasClass, classListRemove, List.mem_filter, hcd]

theorem hasClass_classListAdd_ne (c d : String) (e : Element) (hcd : c ≠ d) :
    hasClass c (classListAdd d e) = hasClass c e := by
  unfold classListAdd
  split
  · rfl
  · simp [hasClass, hcd]

/-- After `group.forEach(b => b.classList.remove('active'))` an element that carries
`active` carried it before and is no member of the group. -/
theorem forEach_remove_active (nodes : List Nat) (j : Nat) : ∀ s : Page,
    hasClass "active" ((s.forEach nodes (classListRemove "active")).elem j) = true →
      hasClass "active" (s.elem j) = true ∧ j ∉ nodes := by
  induction nodes with
  | nil => intro s h; exact ⟨h, by simp⟩
  | cons i rest ih =>
    intro s h
    have h1 := ih (s.update i (classListRemove "active")) (by simpa [Page.forEach] using h)
    rw [elem_update] at h1
    by_cases hij : i = j ∧ j < s.elems.length
    · rw [if_pos hij, hasClass_classListRemove_self] at h1
      exact absurd h1.1 (by simp)
    · rw [if_neg hij] at h1
      refine ⟨h1.1, ?_⟩
      intro hmem
      rcases List.mem_cons.1 hmem with h2 | h2
      · subst h2
        have hlt : ¬ j < s.elems.length := fun hlt => hij ⟨rfl, hlt⟩
        have : s.elem j = {} := by
          simp [Page.elem, List.getElem?_eq_none (Nat.le_of_not_lt hlt)]
        rw [this] at h1
        exact absurd h1.1 (by decide)
      · exact h1.2 h2

/-- The core of every selection listener: after it, the members of the group that carry
`active` are exactly the clicked one. -/
theorem setActive_onlyActive (group : List Nat) (b : Nat) (s : Page) (hb : b < s.elems.length) :
    OnlyActive group b (setActive group b s) := by
  intro j hj
  unfold setActive
  rw [elem_update]
  by_cases hbj : b = j
  · subst hbj
    rw [if_pos ⟨rfl, by rw [forEach_elems_length]; exact hb⟩, hasClass_classListAdd_self]
    simp
  · rw [if_neg (fun h => hbj h.1)]
    constructor
    · intro h
      exact absurd hj (forEach_remove_active group j s h).2
    · intro h
      exact absurd h.symm hbj

theorem setActive_elems_length (group : List Nat) (b : Nat) (s : Page) :
    (setActive group b s).elems.length = s.elems.length := by
  simp [setActive, update_elems_length, forEach_elems_length]

/-- The selection carries over to a later page whose old elements kept `active`. -/
theorem onlyActive_of_same (group : List Nat) (b : Nat) (s s2 : Page)
    (hg : ∀ j ∈ group, j < s.elems.length)
    (hsame : ∀ j, j < s.elems.length →
      hasClass "active" (s2.elem j) = hasClass "active" (s.elem j))
    (h : OnlyActive group b s) : OnlyActive group b s2 := by
  intro j hj
  rw [hsame j (hg j hj)]
  exact h j hj

theorem showToast_elem_classList (message type : String) (s : Page) (j : Nat)
    (hj : j < s.elems.length) :
    ((showToast message type s).elem j).classList = (s.elem j).classList := by
  unfold showToast
  cases hq : s.query (hasClass "toast") with
  | none => simp [Page.elem, List.getElem?_append_left hj]
  | some i =>
    have hlen : j < (s.update i detach).elems.length := by rw [update_elems_length]; exact hj
    have h1 : ({ s.update i detach with
        elems := (s.update i detach).elems ++ [toastElement message type]
        timers := (s.update i detach).timers ++
          [{ due := (s.update i detach).now + 3000,
             action := .toastAutoDismiss (s.update i detach).elems.length }] } : Page).elem j
        = (s.update i detach).elem j := by
      simp [Page.elem, List.getElem?_append_left hlen]
    simp only [h1, elem_update]
    split <;> rfl

theorem showToast_same_active (message type : String) (s : Page) (j : Nat)
    (hj : j < s.elems.length) :
    hasClass "active" ((showToast message type s).elem j) = hasClass "active" (s.elem j) := by
  simp [hasClass, showToast_elem_classList message type s j hj]

theorem update_same_active (s : Page) (i : Nat) (f : Element → Element)
    (hf : ∀ e, hasClass "active" (f e) = hasClass "active" e) (j : Nat) :
    hasClass "active" ((s.update i f).elem j) = hasClass "active" (s.elem j) := by
  rw [elem_update]
  split
  · exact hf _
  · rfl

/-- C6, as the code has it: for the size buttons, the colour buttons, the view buttons,
the thumbnails, the page numbers and the category items (both listeners), after the click
listener of a member `b` of the group has run, the members that carry `active` are
exactly `b`, whatever carried it before. For the tab buttons this holds when no tab
content is itself a tab button. -/
theorem selection_only_clicked_active (s : Page) (group : List Nat) (b : Nat)
    (hb : b ∈ group) (hg : ∀ j ∈ group, j < s.elems.length) :
    OnlyActive group b (sizeClick group b s) ∧
    OnlyActive group b (colorClick group b s) ∧
    (∀ productsGrid, OnlyActive group b (viewClick group productsGrid b s)) ∧
    (∀ mainImage, OnlyActive group b (thumbClick group mainImage b s)) ∧
    OnlyActive group b (pageClick group b s) ∧
    OnlyActive group b (categoryItemClick group b s) ∧
    OnlyActive group b (categoryClick group b s) ∧
    (∀ tabContents : List Nat, (∀ c ∈ tabContents, c ∉ group) →
      OnlyActive group b (tabClick group tabContents b s)) := by
  have hbl : b < s.elems.length := hg b hb
  have hset := setActive_onlyActive group b s hbl
  have hg1 : ∀ j ∈ group, j < (setActive group b s).elems.length := by
    intro j hj
    rw [setActive_elems_length]
    exact hg j hj
  have htoast : ∀ message type : String,
      OnlyActive group b (showToast message type (setActive group b s)) := fun message type =>
    onlyActive_of_same group b _ _ hg1 (fun j hj => showToast_same_active message type _ j hj) hset
  refine ⟨htoast _ _, htoast _ _, ?_, ?_, htoast _ _, hset, htoast _ _, ?_⟩
  · intro productsGrid
    simp only [viewClick]
    split
    · exact onlyActive_of_same group b _ _ hg1
        (fun j _ => update_same_active _ _ _
          (fun e => hasClass_classListAdd_ne "active" "list-view" e (by decide)) j) hset
    · exact onlyActive_of_same group b _ _ hg1
        (fun j _ => update_same_active _ _ _
          (fun e => hasClass_classListRemove_ne "active" "list-view" e (by decide)) j) hset
  · intro mainImage
    simp only [thumbClick]
    apply setActive_onlyActive
    split
    · split
      · simpa [Page.update] using hbl
      · exact hbl
    · exact hbl
  · intro tabContents hdisj
    unfold tabClick
    intro j hj
    have hnot : j ∉ tabContents := fun h => hdisj j h hj
    rw [forEach_elem_not_mem tabContents _ j hnot]
    exact hset j hj

theorem selection_only_clicked_active_witness :
    OnlyActive [0, 1] 1
      (sizeClick [0, 1] 1
        (Page.load [{ tag := "button", classList := ["size-btn", "active"], textContent := "M" },
                    { tag := "button", classList := ["size-btn"], textContent := "L" }])) :=
  (selection_only_clicked_active _ [0, 1] 1 (by decide) (by decide)).1

/-- C6 fails for a tab button that is also a tab content: the listener gives it `active`
and then takes it away again in its loop over the tab contents, the element's id not
being the tab id, so that after the click no tab button carries `active`. -/
theorem tab_button_among_contents_loses_active :
    tabOverlapPage.queryAll (hasClass "tab-btn") = [0] ∧
    tabOverlapPage.queryAll (hasClass "tab-content") = [0] ∧
    hasClass "active" ((tabClick [0] [0] 0 tabOverlapPage).elem 0) = false ∧
    ¬ OnlyActive [0] 0 (tabClick [0] [0] 0 tabOverlapPage) := by
  refine ⟨by decide, by decide, by decide, ?_⟩
  intro h
  have h1 := (h 0 (by decide)).2 rfl
  revert h1
  decide

theorem showToast_elems_length (message type : String) (s : Page) :
    (showToast message type s).elems.length = s.elems.length + 1 := by
  unfold showToast
  cases s.query (hasClass "toast") <;> simp [Page.update]

/-- What `showToast` does to an element that was there before: nothing, unless it is the
toast taken out of the document. -/
theorem showToast_elem_old (message type : String) (s : Page) (j : Nat)
    (hj : j < s.elems.length) :
    (showToast message type s).elem j
      = if s.query (hasClass "toast") = some j then detach (s.elem j) else s.elem j := by
  unfold showToast
  cases hq : s.query (hasClass "toast") with
  | none => simp [Page.elem, List.getElem?_append_left hj]
  | some i =>
    have hlen : j < (s.update i detach).elems.length := by rw [update_elems_length]; exact hj
    have h1 : ({ s.update i detach with
        elems := (s.update i detach).elems ++ [toastElement message type]
        timers := (s.update i detach).timers ++
          [{ due := (s.update i detach).now + 3000,
             action := .toastAutoDismiss (s.update i detach).elems.length }] } : Page).elem j
        = (s.update i detach).elem j := by
      simp [Page.elem, List.getElem?_append_left hlen]
    simp only [h1, elem_update, Option.some.injEq]
    by_cases hij : i = j
    · simp [hij, hj]
    · simp [hij]

theorem showToast_elem_new (message type : String) (s : Page) :
    (showToast message type s).elem s.elems.length = toastElement message type := by
  simp [Page.elem, showToast_getElem_new]

theorem showToast_cartCount (message type : String) (s : Page) :
    (showToast message type s).cartCount = s.cartCount := by
  unfold showToast
  cases s.query (hasClass "toast") <;> rfl

theorem showToast_listeners (message type : String) (s : Page) :
    (showToast message type s).listeners = s.listeners := by
  unfold showToast
  cases s.query (hasClass "toast") <;> rfl

theorem textContent_detach_ite (c : Prop) [Decidable c] (e : Element) :
    (if c then detach e else e).textContent = e.textContent := by
  split <;> rfl

theorem increment_of_lt (n : Nat) (h : n < 9007199254740992) : increment n = n + 1 := by
  simp [increment, h]

theorem showToast_stoppers (message type : String) (s : Page) :
    (showToast message type s).stoppers = s.stoppers := by
  unfold showToast
  cases s.query (hasClass "toast") <;> rfl

/-- No element changes its place in the page when `showToast` runs. -/
theorem showToast_ancestors (message type : String) (s : Page) (u : Nat) :
    ((showToast message type s).elem u).ancestors = (s.elem u).ancestors := by
  rcases Nat.lt_trichotomy u s.elems.length with hu | hu | hu
  · rw [showToast_elem_old message type s u hu]
    split <;> rfl
  · subst hu
    rw [showToast_elem_new]
    simp [Page.elem, toastElement]
  · have h1 : (showToast message type s).elems[u]? = none := by
      apply List.getElem?_eq_none
      rw [showToast_elems_length]
      omega
    have h2 : s.elems[u]? = none := List.getElem?_eq_none (by omega)
    simp [Page.elem, h1, h2]

theorem update_ancestors (s : Page) (i u : Nat) (f : Element → Element)
    (hf : ∀ e, (f e).ancestors = e.ancestors) :
    ((s.update i f).elem u).ancestors = (s.elem u).ancestors := by
  rw [elem_update]
  split
  · exact hf _
  · rfl

theorem runListener_cartCount (l : Listener) (s : Page) :
    (runListener l s).cartCount = increment s.cartCount := by
  cases l with
  | addToCart cartBadge =>
    cases cartBadge <;> simp [runListener, showToast_cartCount, Page.update]
  | buyNow cartBadge =>
    cases cartBadge <;> simp [runListener, showToast_cartCount, Page.update]

theorem runListener_listeners (l : Listener) (s : Page) :
    (runListener l s).listeners = s.listeners := by
  cases l with
  | addToCart cartBadge =>
    cases cartBadge <;> simp [runListener, showToast_listeners, Page.update]
  | buyNow cartBadge =>
    cases cartBadge <;> simp [runListener, showToast_listeners, Page.update]

theorem runListener_stoppers (l : Listener) (s : Page) :
    (runListener l s).stoppers = s.stoppers := by
  cases l with
  | addToCart cartBadge =>
    cases cartBadge <;> simp [runListener, showToast_stoppers, Page.update]
  | buyNow cartBadge =>
    cases cartBadge <;> simp [runListener, showToast_stoppers, Page.update]

theorem runListener_elems_length (l : Listener) (s : Page) :
    (runListener l s).elems.length = s.elems.length + 1 := by
  cases l with
  | addToCart cartBadge =>
    cases cartBadge <;> simp [runListener, showToast_elems_length, Page.update]
  | buyNow cartBadge =>
    cases cartBadge <;> simp [runListener, showToast_elems_length, Page.update]

/-- No element changes its place in the page when a listener of `initCart` runs. -/
theorem runListener_ancestors (l : Listener) (s : Page) (u : Nat) :
    ((runListener l s).elem u).ancestors = (s.elem u).ancestors := by
  cases l with
  | addToCart cartBadge =>
    cases cartBadge with
    | none =>
      simp only [runListener]
      rw [showToast_ancestors]
      rfl
    | some badge =>
      simp only [runListener]
      rw [showToast_ancestors]
      exact update_ancestors _ badge u _ (fun _ => rfl)
  | buyNow cartBadge =>
    cases cartBadge with
    | none =>
      simp only [runListener]
      rw [showToast_ancestors]
      rfl
    | some badge =>
      simp only [runListener]
      rw [showToast_ancestors]
      exact update_ancestors _ badge u _ (fun _ => rfl)

/-- The way of a click and the listeners on it depend on the place of the element
clicked, on the listeners that stop a click and on the listeners of `initCart`. -/
theorem clickListeners_congr (s s2 : Page) (u : Nat)
    (ha : (s2.elem u).ancestors = (s.elem u).ancestors) (hs : s2.stoppers = s.stoppers)
    (hl : s2.listeners = s.listeners) :
    s2.clickPath u = s.clickPath u ∧ s2.clickListeners u = s.clickListeners u := by
  have hp : s2.clickPath u = s.clickPath u := by
    unfold Page.clickPath Page.path
    rw [ha, hs]
  refine ⟨hp, ?_⟩
  unfold Page.clickListeners Page.listenersOn
  rw [hp, hl]

/-- A listener of `initCart` leaves the new count as the text of the badge it holds. -/
theorem runListener_badge_text (l : Listener) (s : Page) (badge : Nat)
    (hl : l.badge = some badge) (hb : badge < s.elems.length) :
    ((runListener l s).elem badge).textContent = toString (increment s.cartCount) := by
  cases l with
  | addToCart cartBadge =>
    simp only [Listener.badge] at hl
    subst hl
    simp only [runListener]
    rw [showToast_elem_old _ _ _ _ (by simpa [Page.update] using hb), textContent_detach_ite]
    simp [Page.elem, Page.update, List.getElem?_eq_getElem hb, setStyle]
  | buyNow cartBadge =>
    simp only [Listener.badge] at hl
    subst hl
    simp only [runListener]
    rw [showToast_elem_old _ _ _ _ (by simpa [Page.update] using hb), textContent_detach_ite]
    simp [Page.elem, Page.update, List.getElem?_eq_getElem hb]

/-- A run of listeners of `initCart`, one after the other: each counts one item while the
counter is below 2^53, and none changes a listener or the way of a click. -/
theorem foldl_runListener (ls : List Listener) : ∀ s : Page,
    (s.cartCount + ls.length ≤ 9007199254740992 →
      (ls.foldl (fun acc l => runListener l acc) s).cartCount = s.cartCount + ls.length) ∧
    (ls.foldl (fun acc l => runListener l acc) s).listeners = s.listeners ∧
    (ls.foldl (fun acc l => runListener l acc) s).stoppers = s.stoppers ∧
    (∀ u, ((ls.foldl (fun acc l => runListener l acc) s).elem u).ancestors
      = (s.elem u).ancestors) ∧
    (ls.foldl (fun acc l => runListener l acc) s).elems.length = s.elems.length + ls.length := by
  induction ls with
  | nil => intro s; simp
  | cons l rest ih =>
    intro s
    obtain ⟨h1, h2, h3, h4, h5⟩ := ih (runListener l s)
    simp only [List.foldl_cons, List.length_cons]
    refine ⟨fun hle => ?_, ?_, ?_, fun u => ?_, ?_⟩
    · have hlt : s.cartCount < 9007199254740992 := by omega
      rw [h1 (by rw [runListener_cartCount, increment_of_lt _ hlt]; omega),
        runListener_cartCount, increment_of_lt _ hlt]
      omega
    · rw [h2, runListener_listeners]
    · rw [h3, runListener_stoppers]
    · rw [h4, runListener_ancestors]
    · rw [h5, runListener_elems_length]
      omega

/-- A click counts one item for every listener of `initCart` it runs, while the counter
stays within 2^53. -/
theorem click_cartCount (target : Nat) (s : Page)
    (h : s.cartCount + (s.clickListeners target).length ≤ 9007199254740992) :
    (click target s).cartCount = s.cartCount + (s.clickListeners target).length :=
  (foldl_runListener _ s).1 h

theorem click_elems_length_le (target : Nat) (s : Page) :
    s.elems.length ≤ (click target s).elems.length := by
  have := (foldl_runListener (s.clickListeners target) s).2.2.2.2
  unfold click
  omega

theorem click_clickListeners (target u : Nat) (s : Page) :
    (click target s).clickListeners u = s.clickListeners u :=
  (clickListeners_congr s _ u ((foldl_runListener _ s).2.2.2.1 u) (foldl_runListener _ s).2.2.1
    (foldl_runListener _ s).2.1).2

theorem click_single (l : Listener) (target : Nat) (s : Page)
    (h : s.clickListeners target = [l]) : click target s = runListener l s := by
  simp [click, h]

/-- Clicks that run one listener of `initCart` each, all holding the same badge: every
click counts one item, and the badge shows the count after the last one. -/
theorem clicks_single (badge : Option Nat) (targets : List Nat) : ∀ s : Page,
    (∀ t ∈ targets, ∃ l, s.clickListeners t = [l] ∧ l.badge = badge) →
    (∀ b, badge = some b → b < s.elems.length) →
    s.cartCount + targets.length ≤ 9007199254740992 →
    (clicks targets s).cartCount = s.cartCount + targets.length ∧
    (∀ b, badge = some b → targets ≠ [] →
      ((clicks targets s).elem b).textContent = toString (s.cartCount + targets.length)) := by
  induction targets with
  | nil => intro s _ _ _; exact ⟨rfl, fun _ _ h => absurd rfl h⟩
  | cons t rest ih =>
    intro s hl hb hle
    simp only [List.length_cons] at hle
    have hlt : s.cartCount < 9007199254740992 := by omega
    obtain ⟨l, hlt1, hlb⟩ := hl t (List.mem_cons_self _ _)
    have hclick := click_single l t s hlt1
    have hl2 : ∀ u ∈ rest, ∃ l, (click t s).clickListeners u = [l] ∧ l.badge = badge := by
      intro u hu
      rw [click_clickListeners]
      exact hl u (List.mem_cons_of_mem _ hu)
    have hb2 : ∀ b, badge = some b → b < (click t s).elems.length := fun b hbb =>
      Nat.lt_of_lt_of_le (hb b hbb) (click_elems_length_le t s)
    have hc : (click t s).cartCount = s.cartCount + 1 := by
      rw [hclick, runListener_cartCount, increment_of_lt _ hlt]
    obtain ⟨ih1, ih2⟩ := ih (click t s) hl2 hb2 (by rw [hc]; omega)
    have hfold : clicks (t :: rest) s = clicks rest (click t s) := rfl
    rw [hfold]
    refine ⟨by rw [ih1, hc, List.length_cons]; omega, ?_⟩
    intro b hbb _
    by_cases hrest : rest = []
    · subst hrest
      have : clicks [] (click t s) = click t s := rfl
      rw [this, hclick, runListener_badge_text l s b (hlb.trans hbb) (hb b hbb),
        increment_of_lt _ hlt]
      rfl
    · rw [ih2 b hbb hrest, hc, List.length_cons]
      congr 1
      omega

theorem foldl_buyNow (badge : Option Nat) (cards : List Nat) : ∀ acc : Page,
    cards.foldl
      (fun acc btn =>
        if includes (acc.elem btn).textContent "Buy Now" then acc.addListener btn (.buyNow badge)
        else acc) acc
      = { acc with
          listeners := acc.listeners ++ List.map (fun btn => (btn, Listener.buyNow badge))
            (cards.filter (fun btn => includes (acc.elem btn).textContent "Buy Now")) } := by
  induction cards with
  | nil => intro acc; simp
  | cons btn rest ih =>
    intro acc
    simp only [List.foldl_cons]
    by_cases hp : includes (acc.elem btn).textContent "Buy Now" = true
    · rw [if_pos hp, ih]
      have he : ∀ x, (acc.addListener btn (.buyNow badge)).elem x = acc.elem x := fun _ => rfl
      simp only [he, List.filter_cons, hp, if_true, List.map_cons]
      simp [Page.addListener]
    · rw [if_neg hp, ih]
      simp only [List.filter_cons, hp, if_false]
      rfl

/-- The listeners `initCart` registers: one on `#add-to-cart-btn` if there is such an
element, then one on every product-card button whose text includes "Buy Now". -/
theorem initCart_eq (s : Page) :
    initCart s = { s with
      listeners := s.listeners ++
        (match s.query (fun e => e.idAttr == "add-to-cart-btn") with
          | some btn => [(btn, Listener.addToCart (s.query (hasClass "cart-badge")))]
          | none => []) ++
        List.map (fun btn => (btn, Listener.buyNow (s.query (hasClass "cart-badge"))))
          (s.cardButtons.filter (fun btn => includes (s.elem btn).textContent "Buy Now")) } := by
  unfold initCart
  simp only
  rw [foldl_buyNow]
  cases s.query (fun e => e.idAttr == "add-to-cart-btn") <;>
    simp [Page.addListener, Page.elem]

theorem length_filter_eq_of_nodup (cards : List Nat) (hn : cards.Nodup) (p : Nat → Bool) (b : Nat) :
    (cards.filter (fun x => p x && x == b)).length = if b ∈ cards ∧ p b = true then 1 else 0 := by
  induction cards with
  | nil => simp
  | cons c rest ih =>
    have hn2 := (List.nodup_cons.1 hn)
    have ih2 := ih hn2.2
    by_cases hcb : c = b
    · subst hcb
      have hnot : ¬ (c ∈ rest ∧ p c = true) := fun h => hn2.1 h.1
      rw [if_neg hnot] at ih2
      by_cases hp : p c = true
      · simp [List.filter_cons, hp, ih2]
      · simp [List.filter_cons, hp, ih2]
    · have h1 : (c == b) = false := by simpa using hcb
      have hbc : b ≠ c := fun h => hcb h.symm
      have h2 : (b ∈ c :: rest ∧ p b = true) ↔ (b ∈ rest ∧ p b = true) := by
        simp [List.mem_cons, hbc]
      simp only [List.filter_cons, h1, Bool.and_false, Bool.false_eq_true, if_false, ih2, h2]

/-- After `initCart` on the page as loaded, the element `b` carries one listener if it
is the `#add-to-cart-btn`, and one more if it is a product-card "Buy Now" button. -/
theorem initCart_listenersOn_length (elems : List Element) (b : Nat) :
    ((initCart (Page.load elems)).listenersOn b).length
      = (if (Page.load elems).isAddToCartBtn b then 1 else 0)
        + (if (Page.load elems).isBuyNowButton b then 1 else 0) := by
  rw [initCart_eq]
  unfold Page.listenersOn Page.isAddToCartBtn Page.isBuyNowButton
  simp only [List.length_map, List.filter_append, List.length_append, List.filter_map]
  have hcards := length_filter_eq_of_nodup (Page.load elems).cardButtons
    (queryAll_nodup _ _) (fun btn => includes ((Page.load elems).elem btn).textContent "Buy Now") b
  have h3 : ((Page.load elems).cardButtons.filter
        (fun btn => includes ((Page.load elems).elem btn).textContent "Buy Now")).filter
          ((fun r : Nat × Listener => r.1 == b) ∘
            fun btn => (btn, Listener.buyNow ((Page.load elems).query (hasClass "cart-badge"))))
      = (Page.load elems).cardButtons.filter
          (fun x => includes ((Page.load elems).elem x).textContent "Buy Now" && x == b) := by
    rw [List.filter_filter]
    apply List.filter_congr
    intro x _
    simp [Bool.and_comm]
  rw [h3, hcards]
  have h1 : (Page.load elems).listeners = [] := rfl
  rw [h1]
  congr 1
  · cases hq : (Page.load elems).query (fun e => e.idAttr == "add-to-cart-btn") with
    | none => simp
    | some btn =>
      by_cases hb : btn = b
      · simp [hb]
      · simp [hb]
  · by_cases hm : b ∈ (Page.load elems).cardButtons
    · simp [hm]
    · simp [hm]

theorem initCart_badge (s : Page) :
    ∀ r ∈ (initCart s).listeners, r ∈ s.listeners ∨ r.2.badge = s.query (hasClass "cart-badge") := by
  intro r hr
  rw [initCart_eq] at hr
  simp only [List.mem_append, List.mem_map] at hr
  rcases hr with (hr | hr) | ⟨btn, _, hr⟩
  · exact Or.inl hr
  · right
    cases hq : s.query (fun e => e.idAttr == "add-to-cart-btn") with
    | none => simp [hq] at hr
    | some btn =>
      simp only [hq, List.mem_singleton] at hr
      rw [hr]
      rfl
  · right
    rw [← hr]
    rfl

theorem initCart_cartCount (s : Page) : (initCart s).cartCount = s.cartCount := by
  rw [initCart_eq]

theorem initCart_elems (s : Page) : (initCart s).elems = s.elems := by
  rw [initCart_eq]

theorem wired_eq (elems : List Element) :
    Page.wired elems = { initCart (Page.load elems) with
      stoppers := (Page.load elems).queryAll (hasClass "wishlist-btn") } := by
  unfold Page.wired initWishlist
  have h1 : (initCart (Page.load elems)).stoppers = [] := by rw [initCart_eq]; rfl
  have h2 : (initCart (Page.load elems)).queryAll (hasClass "wishlist-btn")
      = (Page.load elems).queryAll (hasClass "wishlist-btn") :=
    queryAll_congr_elems _ _ _ (initCart_elems _)
  rw [h1, h2, List.nil_append]

/-- C7, as the code has it: the counter is 3 when the script has been evaluated and when
`init` has run; every run of a listener of `initCart` adds exactly 1 (the counter being
below 2^53) and leaves the new count as the text of the cart badge (when there is one); a
click adds 1 for each such listener it runs on its way from the element clicked through
the elements that element lies in, and after `init` an element carries one if it is the
`#add-to-cart-btn` and one more if it is a product-card "Buy Now" button; so after `n`
clicks that run one listener each the counter is `3 + n`, and for `n ≥ 1` the badge shows
it. -/
theorem cart_counts_each_listener (elems : List Element) :
    (Page.load elems).cartCount = 3 ∧
    (Page.wired elems).cartCount = 3 ∧
    (∀ (l : Listener) (s : Page), s.cartCount < 9007199254740992 →
      (runListener l s).cartCount = s.cartCount + 1 ∧
      ∀ badge, l.badge = some badge → badge < s.elems.length →
        ((runListener l s).elem badge).textContent = toString (s.cartCount + 1)) ∧
    (∀ (b : Nat) (s : Page), s.cartCount + (s.clickListeners b).length ≤ 9007199254740992 →
      (click b s).cartCount = s.cartCount + (s.clickListeners b).length) ∧
    (∀ b : Nat, ((Page.wired elems).listenersOn b).length
      = (if (Page.load elems).isAddToCartBtn b then 1 else 0)
        + (if (Page.load elems).isBuyNowButton b then 1 else 0)) ∧
    (∀ targets : List Nat,
      (∀ t ∈ targets, ((Page.wired elems).clickListeners t).length = 1) →
      3 + targets.length ≤ 9007199254740992 →
      (clicks targets (Page.wired elems)).cartCount = 3 + targets.length ∧
      ∀ badge, (Page.load elems).query (hasClass "cart-badge") = some badge → targets ≠ [] →
        ((clicks targets (Page.wired elems)).elem badge).textContent
          = toString (3 + targets.length)) := by
  have hw := wired_eq elems
  have hcount : (Page.wired elems).cartCount = 3 := by
    rw [hw]
    exact initCart_cartCount _
  have hlis : (Page.wired elems).listeners = (initCart (Page.load elems)).listeners := by rw [hw]
  have helems : (Page.wired elems).elems = elems := by
    rw [hw]
    exact initCart_elems _
  refine ⟨rfl, hcount, fun l s hlt => ?_, click_cartCount, fun b => ?_, ?_⟩
  · refine ⟨by rw [runListener_cartCount, increment_of_lt _ hlt], fun badge hl hb => ?_⟩
    rw [runListener_badge_text l s badge hl hb, increment_of_lt _ hlt]
  · rw [← initCart_listenersOn_length]
    unfold Page.listenersOn
    rw [hlis]
  intro targets hone hle
  have hl : ∀ t ∈ targets, ∃ l, (Page.wired elems).clickListeners t = [l] ∧
      l.badge = (Page.load elems).query (hasClass "cart-badge") := by
    intro t ht
    have h1 := hone t ht
    rcases hlist : (Page.wired elems).clickListeners t with _ | ⟨l, rest⟩
    · rw [hlist] at h1; cases h1
    · rw [hlist] at h1
      have hrest : rest = [] := by
        cases rest with
        | nil => rfl
        | cons _ _ => simp at h1
      subst hrest
      refine ⟨l, rfl, ?_⟩
      have hmem : l ∈ (Page.wired elems).clickListeners t := by rw [hlist]; simp
      unfold Page.clickListeners at hmem
      obtain ⟨i, _, hmem2⟩ := List.mem_flatMap.1 hmem
      unfold Page.listenersOn at hmem2
      obtain ⟨r, hr, hrl⟩ := List.mem_map.1 hmem2
      have hr2 : r ∈ (initCart (Page.load elems)).listeners := by
        rw [← hlis]
        exact (List.mem_filter.1 hr).1
      rcases initCart_badge (Page.load elems) r hr2 with h | h
      · cases h
      · rw [← hrl]; exact h
  have hb : ∀ b, (Page.load elems).query (hasClass "cart-badge") = some b →
      b < (Page.wired elems).elems.length := by
    intro b hq
    rw [helems]
    have : b ∈ (Page.load elems).queryAll (hasClass "cart-badge") := by
      unfold Page.query at hq
      exact List.mem_of_mem_head? hq
    exact selects_lt (mem_queryAll.1 this)
  have := clicks_single _ targets (Page.wired elems) hl hb (by rw [hcount]; exact hle)
  rw [hcount] at this
  exact this

theorem cart_counts_each_listener_witness :
    (clicks [2, 1, 2] (Page.wired cardPage.elems)).cartCount = 6 ∧
    ((clicks [2, 1, 2] (Page.wired cardPage.elems)).elem 4).textContent = "6" ∧
    (click 3 (Page.wired cardPage.elems)).cartCount = 3 :=
  have h := (cart_counts_each_listener cardPage.elems).2.2.2.2.2 [2, 1, 2] (by decide) (by decide)
  ⟨h.1, h.2 4 (by decide) (by decide),
    (cart_counts_each_listener cardPage.elems).2.2.2.1 3 (Page.wired cardPage.elems) (by decide)⟩

/-- C7 fails on a page whose `#add-to-cart-btn` is also a product-card "Buy Now" button:
`initCart` puts both listeners on it, and one click takes the counter from 3 to 5. -/
theorem add_to_cart_button_in_card_counts_twice :
    (Page.wired doubleWiredPage.elems).cartCount = 3 ∧
    (Page.wired doubleWiredPage.elems).clickListeners 1
      = [Listener.addToCart (some 2), Listener.buyNow (some 2)] ∧
    (click 1 (Page.wired doubleWiredPage.elems)).cartCount = 5 ∧
    ((click 1 (Page.wired doubleWiredPage.elems)).elem 2).textContent = "5" := by
  decide

theorem includesChars_at (cs : List Char) : includesChars ['@'] cs = true ↔ '@' ∈ cs := by
  induction cs with
  | nil => simp [includesChars]
  | cons c rest ih =>
    simp only [includesChars, List.isPrefixOf, Bool.or_eq_true, ih, List.mem_cons,
      Bool.and_true, beq_iff_eq]

/-- `email.includes('@')` is true exactly for a string that contains the character. -/
theorem includes_at (v : String) : includes v "@" = true ↔ '@' ∈ v.data :=
  includesChars_at v.data

theorem formReset_elem (form : Nat) (s : Page) (j : Nat) :
    (formReset form s).elem j = resetControl form (s.elem j) := by
  unfold formReset Page.elem
  simp only [List.getElem?_map]
  cases s.elems[j]? with
  | none => rfl
  | some e => rfl

theorem value_detach_ite (c : Prop) [Decidable c] (e : Element) :
    (if c then detach e else e).value = e.value := by
  split <;> rfl

theorem showToast_elem_value (message type : String) (s : Page) (j : Nat)
    (hj : j < s.elems.length) :
    ((showToast message type s).elem j).value = (s.elem j).value := by
  rw [showToast_elem_old message type s j hj, value_detach_ite]

theorem newsletterSubmit_eq (form : Nat) (s : Page) :
    newsletterSubmit form s =
      if (∃ input, s.emailInput form = some input ∧ (s.elem input).value ≠ "" ∧
            '@' ∈ (s.elem input).value.data) then
        .ok (formReset form (showToast "Thank you for subscribing!" "success" s))
      else .ok (showToast "Please enter a valid email address" "error" s) := by
  unfold newsletterSubmit
  cases hq : s.emailInput form with
  | none => simp [truthy, pure, Except.pure]
  | some input =>
    simp only [Option.map_some', truthy, bne_iff_ne, ne_eq, decide_not, Bool.not_eq_true',
      decide_eq_false_iff_not, Option.some.injEq, exists_eq_left']
    by_cases hne : (s.elem input).value = ""
    · simp [hne, pure, Except.pure]
    · by_cases hat : '@' ∈ (s.elem input).value.data
      · have := (includes_at _).2 hat
        simp [hne, hat, includesMethod, this, bind, Except.bind, pure, Except.pure]
      · have : includes (s.elem input).value "@" = false := by
          cases h : includes (s.elem input).value "@"
          · rfl
          · exact absurd ((includes_at _).1 h) hat
        simp [hne, hat, includesMethod, this, bind, Except.bind, pure, Except.pure]

/-- C8: the submit listener of the newsletter form never throws. When the email field
holds a non-empty value that contains `@`, it shows the success toast "Thank you for
subscribing!" and resets the form, every control of the form getting its default value
back; for every other value it shows the error toast "Please enter a valid email
address" and every element keeps its value. -/
theorem newsletter_submit (s : Page) (form : Nat) :
    (∃ r, newsletterSubmit form s = .ok r) ∧
    (∀ (input : Nat) (v : String), s.emailInput form = some input → (s.elem input).value = v →
      (v ≠ "" ∧ '@' ∈ v.data →
        newsletterSubmit form s
          = .ok (formReset form (showToast "Thank you for subscribing!" "success" s)) ∧
        (formReset form (showToast "Thank you for subscribing!" "success" s)).elem s.elems.length
          = toastElement "Thank you for subscribing!" "success" ∧
        ∀ j, j < s.elems.length → isControlOf form (s.elem j) = true →
          ((formReset form (showToast "Thank you for subscribing!" "success" s)).elem j).value
            = (s.elem j).defaultValue) ∧
      (¬ (v ≠ "" ∧ '@' ∈ v.data) →
        newsletterSubmit form s
          = .ok (showToast "Please enter a valid email address" "error" s) ∧
        (showToast "Please enter a valid email address" "error" s).elem s.elems.length
          = toastElement "Please enter a valid email address" "error" ∧
        ∀ j, j < s.elems.length →
          ((showToast "Please enter a valid email address" "error" s).elem j).value
            = (s.elem j).value)) := by
  refine ⟨?_, ?_⟩
  · rw [newsletterSubmit_eq]
    split
    · exact ⟨_, rfl⟩
    · exact ⟨_, rfl⟩
  · intro input v hin hv
    subst hv
    refine ⟨fun h => ⟨?_, ?_, ?_⟩, fun h => ⟨?_, showToast_elem_new _ _ s, ?_⟩⟩
    · rw [newsletterSubmit_eq, if_pos ⟨input, hin, h.1, h.2⟩]
    · rw [formReset_elem, showToast_elem_new]
      rfl
    · intro j hj hc
      rw [formReset_elem]
      have hold := showToast_elem_old "Thank you for subscribing!" "success" s j hj
      have hctl : isControlOf form ((showToast "Thank you for subscribing!" "success" s).elem j)
          = true := by
        rw [hold]; split <;> exact hc
      have hdef : ((showToast "Thank you for subscribing!" "success" s).elem j).defaultValue
          = (s.elem j).defaultValue := by
        rw [hold]; split <;> rfl
      simp [resetControl, hctl, hdef]
    · rw [newsletterSubmit_eq, if_neg]
      rintro ⟨i2, hi2, h1, h2⟩
      rw [hin] at hi2
      cases hi2
      exact h ⟨h1, h2⟩
    · intro j hj
      exact showToast_elem_value _ _ s j hj

theorem newsletter_submit_witness :
    (newsletterSubmit 0 (newsletterPage "user@example.com")
      = .ok (formReset 0 (showToast "Thank you for subscribing!" "success"
          (newsletterPage "user@example.com")))) ∧
    (newsletterSubmit 0 (newsletterPage "not-an-email")
      = .ok (showToast "Please enter a valid email address" "error"
          (newsletterPage "not-an-email"))) :=
  ⟨((newsletter_submit (newsletterPage "user@example.com") 0).2 1 "user@example.com"
      (by decide) (by decide)).1 (by decide) |>.1,
   ((newsletter_submit (newsletterPage "not-an-email") 0).2 1 "not-an-email"
      (by decide) (by decide)).2 (by decide) |>.1⟩

theorem forEach_setText_mem (v : String) (nodes : List Nat) (j : Nat) : ∀ s : Page,
    j ∈ nodes → j < s.elems.length →
      ((s.forEach nodes (setText v)).elem j).textContent = v := by
  induction nodes with
  | nil => intro s h; cases h
  | cons i rest ih =>
    intro s hmem hj
    have hfold : s.forEach (i :: rest) (setText v) = (s.update i (setText v)).forEach rest (setText v) :=
      rfl
    rw [hfold]
    by_cases hr : j ∈ rest
    · exact ih _ hr (by rw [update_elems_length]; exact hj)
    · have hji : j = i := by
        rcases List.mem_cons.1 hmem with h | h
        · exact h
        · exact absurd h hr
      subst hji
      rw [forEach_elem_not_mem rest _ j hr, elem_update, if_pos ⟨rfl, hj⟩]
      rfl

theorem forEach_fixed (nodes : List Nat) (f : Element → Element) (s : Page)
    (h : ∀ j ∈ nodes, f (s.elem j) = s.elem j) : s.forEach nodes f = s := by
  induction nodes with
  | nil => rfl
  | cons i rest ih =>
    have hfold : s.forEach (i :: rest) f = (s.update i f).forEach rest f := rfl
    rw [hfold, update_fixed s i f (h i (List.mem_cons_self _ _))]
    exact ih (fun j hj => h j (List.mem_cons_of_mem _ hj))

theorem queryAll_forEach_keep (c : String) (nodes : List Nat) (f : Element → Element)
    (hf : ∀ e, (f e).attached = e.attached ∧ (f e).classList = e.classList) : ∀ s : Page,
    (s.forEach nodes f).queryAll (hasClass c) = s.queryAll (hasClass c) := by
  induction nodes with
  | nil => intro s; rfl
  | cons i rest ih =>
    intro s
    have hfold : s.forEach (i :: rest) f = (s.update i f).forEach rest f := rfl
    rw [hfold, ih, queryAll_update_keep s c i f hf]

theorem setText_fixed (v : String) (e : Element) (h : e.textContent = v) : setText v e = e := by
  cases e
  simp only [setText] at h ⊢
  simp [h]

/-- A tick after the target has passed writes "00" into every element of class
`countdown-value` in the document. -/
theorem updateCountdown_elapsed (target clock : Int) (h : target < clock) (s : Page) :
    updateCountdown (.int target) clock s
      = s.forEach (s.queryAll (hasClass "countdown-value")) (setText "00") := by
  have hlt : (JSNumber.sub (.int target) (.int clock)).lt (.int 0) = true := by
    simp only [JSNumber.sub, JSNumber.lt, decide_eq_true_eq]
    omega
  simp only [updateCountdown, hlt, if_true]

/-- A second such tick changes nothing. -/
theorem updateCountdown_elapsed_again (target clock later : Int) (h : target < clock)
    (hl : clock ≤ later) (s : Page) :
    updateCountdown (.int target) later (updateCountdown (.int target) clock s)
      = updateCountdown (.int target) clock s := by
  rw [updateCountdown_elapsed target later (by omega), updateCountdown_elapsed target clock h]
  rw [queryAll_forEach_keep "countdown-value" _ (setText "00") (fun e => ⟨rfl, rfl⟩)]
  apply forEach_fixed
  intro j hj
  apply setText_fixed
  exact forEach_setText_mem "00" _ j s hj (selects_lt (mem_queryAll.1 hj))

/-- C9: for a valid target, a tick whose clock reading is past the target leaves "00" as
the text of every element of class `countdown-value` in the document, the fields the
elapsed branch writes; and every later tick (the clock not running backwards) returns
the page exactly as that tick left it, so nothing displayed changes again. -/
theorem countdown_elapsed_shows_zeros (target clock : Int) (s : Page) (h : target < clock) :
    (∀ i ∈ s.queryAll (hasClass "countdown-value"),
      ((updateCountdown (.int target) clock s).elem i).textContent = "00") ∧
    (∀ later : List Int, (∀ c ∈ later, clock ≤ c) →
      runTicks (.int target) later (updateCountdown (.int target) clock s)
        = updateCountdown (.int target) clock s) := by
  refine ⟨fun i hi => ?_, fun later => ?_⟩
  · rw [updateCountdown_elapsed target clock h]
    exact forEach_setText_mem "00" _ i s hi (selects_lt (mem_queryAll.1 hi))
  · induction later with
    | nil => intro _; rfl
    | cons c rest ih =>
      intro hc
      have hstep : runTicks (.int target) (c :: rest) (updateCountdown (.int target) clock s)
          = runTicks (.int target) rest
              (updateCountdown (.int target) c (updateCountdown (.int target) clock s)) := rfl
      rw [hstep, updateCountdown_elapsed_again target clock c h (hc c (List.mem_cons_self _ _))]
      exact ih (fun x hx => hc x (List.mem_cons_of_mem _ hx))

theorem countdown_elapsed_shows_zeros_witness :
    ((updateCountdown (.int 1700000000000) 1700000000500 countdownPage).elem 3).textContent = "00" ∧
    runTicks (.int 1700000000000) [1700000001500, 1700000002500]
        (updateCountdown (.int 1700000000000) 1700000000500 countdownPage)
      = updateCountdown (.int 1700000000000) 1700000000500 countdownPage :=
  have h := countdown_elapsed_shows_zeros 1700000000000 1700000000500 countdownPage (by decide)
  ⟨h.1 3 (by decide), h.2 [1700000001500, 1700000002500] (by decide)⟩

theorem setTextIf_elems_length (s : Page) (el : Option Nat) (v : String) :
    (s.setTextIf el v).elems.length = s.elems.length := by
  cases el <;> simp [Page.setTextIf, update_elems_length]

theorem setTextIf_sets (s : Page) (i : Nat) (v : String) (hi : i < s.elems.length) :
    ((s.setTextIf (some i) v).elem i).textContent = v := by
  simp only [Page.setTextIf]
  rw [elem_update, if_pos ⟨rfl, hi⟩]
  rfl

theorem setTextIf_keeps (s : Page) (el : Option Nat) (v : String) (j : Nat)
    (h : (s.elem j).textContent = v) : ((s.setTextIf el v).elem j).textContent = v := by
  cases el with
  | none => exact h
  | some i =>
    simp only [Page.setTextIf]
    rw [elem_update]
    split
    · rfl
    · exact h

theorem setTextIf_other (s : Page) (el : Option Nat) (v : String) (j : Nat)
    (h : el ≠ some j) : (s.setTextIf el v).elem j = s.elem j := by
  cases el with
  | none => rfl
  | some i =>
    simp only [Page.setTextIf]
    rw [elem_update, if_neg]
    rintro ⟨hij, _⟩
    exact h (by rw [hij])

/-- With a target that is not a number the elapsed branch is not taken, and the four
fields are written with the text of NaN. -/
theorem updateCountdown_nan (clock : Int) (s : Page) :
    updateCountdown .nan clock s
      = (((s.setTextIf (s.query (fun e => e.idAttr == "days")) "NaN").setTextIf
            (s.query (fun e => e.idAttr == "hours")) "NaN").setTextIf
            (s.query (fun e => e.idAttr == "minutes")) "NaN").setTextIf
            (s.query (fun e => e.idAttr == "seconds")) "NaN" := by
  have hpad : padStart 2 '0' "NaN" = "NaN" := by decide
  simp [updateCountdown, JSNumber.sub, JSNumber.lt, JSNumber.mod, JSNumber.floorDiv,
    JSNumber.asString, hpad]

theorem query_lt {s : Page} {p : Element → Bool} {i : Nat} (h : s.query p = some i) :
    i < s.elems.length := by
  have : i ∈ s.queryAll p := by
    unfold Page.query at h
    exact List.mem_of_mem_head? h
  exact selects_lt (mem_queryAll.1 this)

/-- C10, as the code has it: when the target is not a number (the attribute is missing
or does not parse), `updateCountdown` returns without throwing, but the countdown is not
taken as elapsed: `distance < 0` is false for NaN, and on every tick each of the fields
`#days`, `#hours`, `#minutes`, `#seconds` that exists displays "NaN"; every other
element is left as it was. -/
theorem countdown_invalid_target_shows_NaN (parse : String → JSNumber) (attr : Option String)
    (clock : Int) (s : Page) (h : dateTime parse attr = .nan) :
    (∀ name ∈ countdownFieldIds, ∀ i, s.query (fun e => e.idAttr == name) = some i →
      ((updateCountdown (dateTime parse attr) clock s).elem i).textContent = "NaN") ∧
    (∀ j, (∀ name ∈ countdownFieldIds, s.query (fun e => e.idAttr == name) ≠ some j) →
      (updateCountdown (dateTime parse attr) clock s).elem j = s.elem j) := by
  rw [h, updateCountdown_nan]
  constructor
  · intro name hname i hq
    have hi := query_lt hq
    simp only [countdownFieldIds, List.mem_cons, List.mem_singleton, List.not_mem_nil,
      or_false] at hname
    rcases hname with rfl | rfl | rfl | rfl
    · rw [hq]
      exact setTextIf_keeps _ _ _ _ (setTextIf_keeps _ _ _ _ (setTextIf_keeps _ _ _ _
        (setTextIf_sets s i "NaN" hi)))
    · rw [hq]
      exact setTextIf_keeps _ _ _ _ (setTextIf_keeps _ _ _ _
        (setTextIf_sets _ i "NaN" (by rw [setTextIf_elems_length]; exact hi)))
    · rw [hq]
      exact setTextIf_keeps _ _ _ _
        (setTextIf_sets _ i "NaN" (by simp only [setTextIf_elems_length]; exact hi))
    · rw [hq]
      exact setTextIf_sets _ i "NaN" (by simp only [setTextIf_elems_length]; exact hi)
  · intro j hj
    have hd := hj "days" (by simp [countdownFieldIds])
    have hh := hj "hours" (by simp [countdownFieldIds])
    have hm := hj "minutes" (by simp [countdownFieldIds])
    have hs := hj "seconds" (by simp [countdownFieldIds])
    rw [setTextIf_other _ _ _ j hs, setTextIf_other _ _ _ j hm, setTextIf_other _ _ _ j hh,
      setTextIf_other _ _ _ j hd]

theorem countdown_invalid_target_shows_NaN_witness :
    dateTime (fun _ => JSNumber.nan) none = .nan ∧
    ((updateCountdown (dateTime (fun _ => JSNumber.nan) none) 1700000000000 countdownPage).elem 2).textContent
      = "NaN" :=
  ⟨rfl, (countdown_invalid_target_shows_NaN (fun _ => JSNumber.nan) none 1700000000000
    countdownPage rfl).1 "hours" (by decide) 2 (by decide)⟩

/-- C10 fails: with the `data-target` attribute missing the target is NaN, and after a
tick the four fields display "NaN", not "00". -/
theorem countdown_missing_target_not_zero :
    (updateCountdown (dateTime (fun _ => JSNumber.nan) none) 1700000000000 countdownPage).elems.map
        (fun e => e.textContent)
      = ["", "NaN", "NaN", "NaN", "NaN"] := by
  decide

theorem queryAll_nil_of_lacks {s : Page} {p : Element → Bool} (h : s.Lacks p) :
    s.queryAll p = [] := by
  unfold Page.queryAll
  rw [List.filter_eq_nil_iff]
  intro i _
  unfold Page.selects
  cases he : s.elems[i]? with
  | none => simp
  | some e =>
    have := h e (List.getElem?_mem he)
    simp [this]

theorem query_none_of_lacks {s : Page} {p : Element → Bool} (h : s.Lacks p) :
    s.query p = none := by
  unfold Page.query
  rw [queryAll_nil_of_lacks h]
  rfl

/-- C11: when a mandatory element of an initializer is absent from the document
(`#countdown-timer` for `initCountdown`; `#search-input` or `#search-btn` for
`initSearchBar`; every `.view-toggles .view-btn` or `#products-grid` for
`initViewToggles`; `#main-product-image` or every `.thumbnail` for `initImageGallery`;
every `.tab-btn` or every `.tab-content` for `initTabs`; `#mobile-menu-btn` or
`#mobile-menu` for `initMobileMenu`), a run of the initializer returns the state it was
given: the page with its elements, timers, counter and listeners, the registrations and
the intervals are all as before. A run is a value of the function on every state, so
it does not raise. -/
theorem init_absent_returns_unchanged (host : Host) (s : Site) :
    (s.page.Lacks (fun e => e.idAttr == "countdown-timer") → initCountdown host s = s) ∧
    (s.page.Lacks (fun e => e.idAttr == "search-input") ∨
      s.page.Lacks (fun e => e.idAttr == "search-btn") → initSearchBar s = s) ∧
    (s.page.Lacks (fun e => s.page.within "view-toggles" e && hasClass "view-btn" e) ∨
      s.page.Lacks (fun e => e.idAttr == "products-grid") → initViewToggles s = s) ∧
    (s.page.Lacks (fun e => e.idAttr == "main-product-image") ∨
      s.page.Lacks (hasClass "thumbnail") → initImageGallery s = s) ∧
    (s.page.Lacks (hasClass "tab-btn") ∨ s.page.Lacks (hasClass "tab-content") →
      initTabs s = s) ∧
    (s.page.Lacks (fun e => e.idAttr == "mobile-menu-btn") ∨
      s.page.Lacks (fun e => e.idAttr == "mobile-menu") → initMobileMenu s = s) := by
  refine ⟨fun h => ?_, fun h => ?_, fun h => ?_, fun h => ?_, fun h => ?_, fun h => ?_⟩
  · simp only [initCountdown, query_none_of_lacks h]
  · rcases h with h | h
    · simp only [initSearchBar, query_none_of_lacks h]
    · simp only [initSearchBar, query_none_of_lacks h]
      split <;> simp_all
  · rcases h with h | h
    · simp only [initViewToggles, queryAll_nil_of_lacks h]
    · simp only [initViewToggles, query_none_of_lacks h]
      split <;> simp_all
  · rcases h with h | h
    · simp only [initImageGallery, query_none_of_lacks h]
    · simp only [initImageGallery, queryAll_nil_of_lacks h]
      split <;> simp_all
  · rcases h with h | h
    · simp only [initTabs, queryAll_nil_of_lacks h]
    · simp only [initTabs, queryAll_nil_of_lacks h]
      split <;> simp_all
  · rcases h with h | h
    · simp only [initMobileMenu, query_none_of_lacks h]
    · simp only [initMobileMenu, query_none_of_lacks h]
      split <;> simp_all

theorem init_absent_returns_unchanged_witness :
    initCountdown demoHost (Site.load shopPage.elems) = Site.load shopPage.elems ∧
    initSearchBar (Site.load shopPage.elems) = Site.load shopPage.elems ∧
    initViewToggles (Site.load shopPage.elems) = Site.load shopPage.elems ∧
    initImageGallery (Site.load shopPage.elems) = Site.load shopPage.elems ∧
    initTabs (Site.load shopPage.elems) = Site.load shopPage.elems ∧
    initMobileMenu (Site.load shopPage.elems) = Site.load shopPage.elems :=
  have h := init_absent_returns_unchanged demoHost (Site.load shopPage.elems)
  ⟨h.1 (by unfold Page.Lacks; decide),
   h.2.1 (Or.inl (by unfold Page.Lacks; decide)),
   h.2.2.1 (Or.inr (by unfold Page.Lacks; decide)),
   h.2.2.2.1 (Or.inl (by unfold Page.Lacks; decide)),
   h.2.2.2.2.1 (Or.inl (by unfold Page.Lacks; decide)),
   h.2.2.2.2.2 (Or.inl (by unfold Page.Lacks; decide))⟩

theorem query_getElem {s : Page} {p : Element → Bool} {i : Nat} (h : s.query p = some i) :
    ∃ e, s.elems[i]? = some e ∧ e.attached = true ∧ p e = true := by
  have hm : i ∈ s.queryAll p := by
    unfold Page.query at h
    exact List.mem_of_mem_head? h
  have hs := mem_queryAll.1 hm
  unfold Page.selects at hs
  cases he : s.elems[i]? with
  | none => simp [he] at hs
  | some e =>
    simp only [he, Bool.and_eq_true] at hs
    exact ⟨e, rfl, hs.1, hs.2⟩

/-- Two lookups by different ids do not find the same element. -/
theorem query_id_ne (s : Page) (x y : String) (hxy : x ≠ y) (i : Nat)
    (hx : s.query (fun e => e.idAttr == x) = some i) :
    s.query (fun e => e.idAttr == y) ≠ some i := by
  intro hy
  obtain ⟨e, he, _, h1⟩ := query_getElem hx
  obtain ⟨e2, he2, _, h2⟩ := query_getElem hy
  rw [he] at he2
  cases he2
  simp only [beq_iff_eq] at h1 h2
  exact hxy (h1.symm.trans h2)

/-- While the target lies ahead or is not a number, `updateCountdown` writes the four
fields it finds, each with its padded text. -/
theorem updateCountdown_ahead (targetDate : JSNumber) (clock : Int) (s : Page)
    (h : (targetDate.sub (.int clock)).lt (.int 0) = false) :
    updateCountdown targetDate clock s
      = (((s.setTextIf (s.query (fun e => e.idAttr == "days"))
              (padStart 2 '0'
                ((targetDate.sub (.int clock)).floorDiv (1000 * 60 * 60 * 24)).asString)).setTextIf
            (s.query (fun e => e.idAttr == "hours"))
              (padStart 2 '0'
                (((targetDate.sub (.int clock)).mod (1000 * 60 * 60 * 24)).floorDiv
                  (1000 * 60 * 60)).asString)).setTextIf
            (s.query (fun e => e.idAttr == "minutes"))
              (padStart 2 '0'
                (((targetDate.sub (.int clock)).mod (1000 * 60 * 60)).floorDiv
                  (1000 * 60)).asString)).setTextIf
            (s.query (fun e => e.idAttr == "seconds"))
              (padStart 2 '0'
                (((targetDate.sub (.int clock)).mod (1000 * 60)).floorDiv 1000).asString) := by
  simp only [updateCountdown, h, Bool.false_eq_true, if_false]

/-- The text of each of the four fields after they have been written in turn. -/
theorem fields_text (s : Page) (v1 v2 v3 v4 : String) :
    (∀ i, s.query (fun e => e.idAttr == "days") = some i →
      (((((s.setTextIf (s.query (fun e => e.idAttr == "days")) v1).setTextIf
        (s.query (fun e => e.idAttr == "hours")) v2).setTextIf
        (s.query (fun e => e.idAttr == "minutes")) v3).setTextIf
        (s.query (fun e => e.idAttr == "seconds")) v4).elem i).textContent = v1) ∧
    (∀ i, s.query (fun e => e.idAttr == "hours") = some i →
      (((((s.setTextIf (s.query (fun e => e.idAttr == "days")) v1).setTextIf
        (s.query (fun e => e.idAttr == "hours")) v2).setTextIf
        (s.query (fun e => e.idAttr == "minutes")) v3).setTextIf
        (s.query (fun e => e.idAttr == "seconds")) v4).elem i).textContent = v2) ∧
    (∀ i, s.query (fun e => e.idAttr == "minutes") = some i →
      (((((s.setTextIf (s.query (fun e => e.idAttr == "days")) v1).setTextIf
        (s.query (fun e => e.idAttr == "hours")) v2).setTextIf
        (s.query (fun e => e.idAttr == "minutes")) v3).setTextIf
        (s.query (fun e => e.idAttr == "seconds")) v4).elem i).textContent = v3) ∧
    (∀ i, s.query (fun e => e.idAttr == "seconds") = some i →
      (((((s.setTextIf (s.query (fun e => e.idAttr == "days")) v1).setTextIf
        (s.query (fun e => e.idAttr == "hours")) v2).setTextIf
        (s.query (fun e => e.idAttr == "minutes")) v3).setTextIf
        (s.query (fun e => e.idAttr == "seconds")) v4).elem i).textContent = v4) := by
  refine ⟨fun i hq => ?_, fun i hq => ?_, fun i hq => ?_, fun i hq => ?_⟩
  · have hi := query_lt hq
    rw [setTextIf_other _ _ _ i (query_id_ne s "days" "seconds" (by decide) i hq),
      setTextIf_other _ _ _ i (query_id_ne s "days" "minutes" (by decide) i hq),
      setTextIf_other _ _ _ i (query_id_ne s "days" "hours" (by decide) i hq), hq]
    exact setTextIf_sets s i v1 hi
  · have hi := query_lt hq
    rw [setTextIf_other _ _ _ i (query_id_ne s "hours" "seconds" (by decide) i hq),
      setTextIf_other _ _ _ i (query_id_ne s "hours" "minutes" (by decide) i hq), hq]
    exact setTextIf_sets _ i v2 (by rw [setTextIf_elems_length]; exact hi)
  · have hi := query_lt hq
    rw [setTextIf_other _ _ _ i (query_id_ne s "minutes" "seconds" (by decide) i hq), hq]
    exact setTextIf_sets _ i v3 (by simp only [setTextIf_elems_length]; exact hi)
  · have hi := query_lt hq
    rw [hq]
    exact setTextIf_sets _ i v4 (by simp only [setTextIf_elems_length]; exact hi)

theorem setText_erase (v : String) (e : Element) : setText "" (setText v e) = setText "" e := rfl

theorem update_setText_erased (s : Page) (i : Nat) (v : String) :
    (s.update i (setText v)).elems.map (setText "") = s.elems.map (setText "") := by
  apply List.ext_getElem?
  intro m
  simp only [Page.update, List.getElem?_map, List.getElem?_modify]
  by_cases h : i = m
  · subst h
    cases s.elems[i]? <;> simp [setText_erase]
  · cases s.elems[m]? <;> simp [h]

theorem forEach_setText_erased (v : String) (nodes : List Nat) : ∀ s : Page,
    (s.forEach nodes (setText v)).elems.map (setText "") = s.elems.map (setText "") := by
  induction nodes with
  | nil => intro s; rfl
  | cons i rest ih =>
    intro s
    have hfold : s.forEach (i :: rest) (setText v) = (s.update i (setText v)).forEach rest (setText v) :=
      rfl
    rw [hfold, ih, update_setText_erased]

theorem setTextIf_erased (s : Page) (el : Option Nat) (v : String) :
    (s.setTextIf el v).elems.map (setText "") = s.elems.map (setText "") := by
  cases el with
  | none => rfl
  | some i => exact update_setText_erased s i v

theorem forEach_now (nodes : List Nat) (f : Element → Element) : ∀ s : Page,
    (s.forEach nodes f).now = s.now := by
  induction nodes with
  | nil => intro s; rfl
  | cons i rest ih =>
    intro s
    have hfold : s.forEach (i :: rest) f = (s.update i f).forEach rest f := rfl
    rw [hfold, ih]
    rfl

theorem setTextIf_now (s : Page) (el : Option Nat) (v : String) :
    (s.setTextIf el v).now = s.now := by
  cases el <;> rfl

/-- A run of `updateCountdown` changes nothing but the text of elements. -/
theorem updateCountdown_erased (targetDate : JSNumber) (clock : Int) (s : Page) :
    (updateCountdown targetDate clock s).now = s.now ∧
    (updateCountdown targetDate clock s).elems.map (setText "") = s.elems.map (setText "") := by
  cases h : (targetDate.sub (.int clock)).lt (.int 0) with
  | true =>
    have : updateCountdown targetDate clock s
        = s.forEach (s.queryAll (hasClass "countdown-value")) (setText "00") := by
      simp only [updateCountdown, h, if_true]
    rw [this]
    exact ⟨forEach_now _ _ s, forEach_setText_erased _ _ s⟩
  | false =>
    rw [updateCountdown_ahead targetDate clock s h]
    simp only [setTextIf_now, setTextIf_erased, and_self]

/-- Two pages that differ in the text of elements only give every lookup that does not
read the text the same result. -/
theorem queryAll_of_erased (s s2 : Page) (p : Element → Bool)
    (hp : ∀ v e, p (setText v e) = p e)
    (h : s2.elems.map (setText "") = s.elems.map (setText "")) :
    s2.queryAll p = s.queryAll p := by
  unfold Page.queryAll
  have hlen : s2.elems.length = s.elems.length := by
    have := congrArg List.length h
    simpa using this
  rw [hlen]
  apply List.filter_congr
  intro i _
  have hi := congrArg (fun l => l[i]?) h
  simp only [List.getElem?_map] at hi
  unfold Page.selects
  cases h2 : s2.elems[i]? with
  | none =>
    cases h1 : s.elems[i]? with
    | none => rfl
    | some e => simp [h1, h2] at hi
  | some e2 =>
    cases h1 : s.elems[i]? with
    | none => simp [h1, h2] at hi
    | some e =>
      simp only [h1, h2, Option.map_some', Option.some.injEq] at hi
      have ha : e2.attached = e.attached :=
        (congrArg Element.attached hi : (setText "" e2).attached = (setText "" e).attached)
      have hpe : p e2 = p e := by
        rw [← hp "" e2, ← hp "" e, hi]
      simp only [ha, hpe]

theorem query_of_erased (s s2 : Page) (p : Element → Bool)
    (hp : ∀ v e, p (setText v e) = p e)
    (h : s2.elems.map (setText "") = s.elems.map (setText "")) :
    s2.query p = s.query p := by
  unfold Page.query
  rw [queryAll_of_erased s s2 p hp h]

theorem dataset_of_erased (s s2 : Page) (i : Nat)
    (h : s2.elems.map (setText "") = s.elems.map (setText "")) :
    (s2.elem i).dataset = (s.elem i).dataset := by
  have hi := congrArg (fun l => l[i]?) h
  simp only [List.getElem?_map] at hi
  unfold Page.elem
  cases h2 : s2.elems[i]? with
  | none =>
    cases h1 : s.elems[i]? with
    | none => rfl
    | some e => simp [h1, h2] at hi
  | some e2 =>
    cases h1 : s.elems[i]? with
    | none => simp [h1, h2] at hi
    | some e =>
      simp only [h1, h2, Option.map_some', Option.some.injEq] at hi
      exact (congrArg Element.dataset hi : (setText "" e2).dataset = (setText "" e).dataset)

theorem setTextIf_fixed (s : Page) (el : Option Nat) (v : String)
    (h : ∀ i, el = some i → (s.elem i).textContent = v) : s.setTextIf el v = s := by
  cases el with
  | none => rfl
  | some i => exact update_fixed s i _ (setText_fixed v _ (h i rfl))

/-- A second run of `updateCountdown` at the same clock reading changes nothing. -/
theorem updateCountdown_again (targetDate : JSNumber) (clock : Int) (s : Page) :
    updateCountdown targetDate clock (updateCountdown targetDate clock s)
      = updateCountdown targetDate clock s := by
  cases h : (targetDate.sub (.int clock)).lt (.int 0) with
  | true =>
    cases targetDate with
    | nan => simp [JSNumber.sub, JSNumber.lt] at h
    | int target =>
      have hlt : target < clock := by
        simp only [JSNumber.sub, JSNumber.lt, decide_eq_true_eq] at h
        omega
      exact updateCountdown_elapsed_again target clock clock hlt (le_refl _) s
  | false =>
    have hid : ∀ name : String, ∀ v (e : Element),
        (fun e : Element => e.idAttr == name) (setText v e) = (fun e : Element => e.idAttr == name) e :=
      fun _ _ _ => rfl
    have her := (updateCountdown_erased targetDate clock s).2
    rw [updateCountdown_ahead targetDate clock _ h,
      query_of_erased s _ _ (hid "days") her, query_of_erased s _ _ (hid "hours") her,
      query_of_erased s _ _ (hid "minutes") her, query_of_erased s _ _ (hid "seconds") her]
    rw [updateCountdown_ahead targetDate clock s h]
    have ht := fields_text s
      (padStart 2 '0' ((targetDate.sub (.int clock)).floorDiv (1000 * 60 * 60 * 24)).asString)
      (padStart 2 '0' (((targetDate.sub (.int clock)).mod (1000 * 60 * 60 * 24)).floorDiv
        (1000 * 60 * 60)).asString)
      (padStart 2 '0' (((targetDate.sub (.int clock)).mod (1000 * 60 * 60)).floorDiv
        (1000 * 60)).asString)
      (padStart 2 '0' (((targetDate.sub (.int clock)).mod (1000 * 60)).floorDiv 1000).asString)
    rw [setTextIf_fixed _ _ _ ht.1, setTextIf_fixed _ _ _ ht.2.1, setTextIf_fixed _ _ _ ht.2.2.1,
      setTextIf_fixed _ _ _ ht.2.2.2]

theorem foldl_addEventListener (event : String) (h : Nat → Handler) (nodes : List Nat) :
    ∀ s : Site,
    nodes.foldl (fun acc n => acc.addEventListener (.element n) event (h n)) s
      = { s with registrations := s.registrations ++
            nodes.map (fun n => { target := .element n, event := event, handler := h n }) } := by
  induction nodes with
  | nil => intro s; simp
  | cons n rest ih =>
    intro s
    simp only [List.foldl_cons, ih, List.map_cons]
    simp [Site.addEventListener]

/-- An initializer that does nothing but register listeners picked by the page repeats
them on a second run. -/
theorem secondRunRepeats_of_appends (f : Site → Site) (R : Page → List Registration)
    (hf : ∀ s, f s = { s with registrations := s.registrations ++ R s.page }) (s : Site) :
    SecondRunRepeats f s := by
  have h1 := hf s
  have h2 := hf (f s)
  have hp : (f s).page = s.page := by rw [h1]
  have hr : (f s).registrations = s.registrations ++ R s.page := by rw [h1]
  have hi : (f s).intervals = s.intervals := by rw [h1]
  have hp2 : (f (f s)).page = (f s).page := by rw [h2]
  have hr2 : (f (f s)).registrations = (f s).registrations ++ R s.page := by rw [h2, hp]
  have hi2 : (f (f s)).intervals = (f s).intervals := by rw [h2]
  refine ⟨hp2, ?_, ?_, ?_⟩
  · rw [hr2, hr, List.drop_left]
  · rw [hi2, hi, List.drop_length, List.append_nil]
  · constructor
    · intro h
      have : (f s).registrations ++ R s.page = (f s).registrations := by rw [← hr2, h]
      have hnil : R s.page = [] := List.append_right_eq_self.1 this
      rw [h1, hnil, List.append_nil]
    · intro h
      rw [h, h]

theorem initSearchBar_appends : ∃ R : Page → List Registration,
    ∀ s, initSearchBar s = { s with registrations := s.registrations ++ R s.page } := by
  refine ⟨fun p =>
    match p.query (fun e => e.idAttr == "search-input"),
        p.query (fun e => e.idAttr == "search-btn") with
    | some searchInput, some searchBtn =>
      [{ target := .element searchBtn, event := "click",
         handler := .performSearch searchInput (p.query (fun e => e.idAttr == "category-select")) },
       { target := .element searchInput, event := "keypress",
         handler := .searchKeypress searchInput (p.query (fun e => e.idAttr == "category-select")) },
       { target := .element searchInput, event := "input", handler := .searchSuggest }]
    | _, _ => [], fun s => ?_⟩
  simp only [initSearchBar]
  split <;> simp_all [Site.addEventListener]

theorem initViewToggles_appends : ∃ R : Page → List Registration,
    ∀ s, initViewToggles s = { s with registrations := s.registrations ++ R s.page } := by
  refine ⟨fun p =>
    match p.queryAll (fun e => p.within "view-toggles" e && hasClass "view-btn" e),
        p.query (fun e => e.idAttr == "products-grid") with
    | _ :: _, some productsGrid =>
      (p.queryAll (fun e => p.within "view-toggles" e && hasClass "view-btn" e)).map
        (fun btn => { target := .element btn, event := "click",
                      handler := .viewClick
                        (p.queryAll (fun e => p.within "view-toggles" e && hasClass "view-btn" e))
                        productsGrid btn })
    | _, _ => [], fun s => ?_⟩
  simp only [initViewToggles]
  split
  · rw [foldl_addEventListener]
  · simp_all

theorem initImageGallery_appends : ∃ R : Page → List Registration,
    ∀ s, initImageGallery s = { s with registrations := s.registrations ++ R s.page } := by
  refine ⟨fun p =>
    match p.query (fun e => e.idAttr == "main-product-image"),
        p.queryAll (hasClass "thumbnail") with
    | some mainImage, _ :: _ =>
      (p.queryAll (hasClass "thumbnail")).map
        (fun thumb => { target := .element thumb, event := "click",
                        handler := .thumbClick (p.queryAll (hasClass "thumbnail")) mainImage thumb })
    | _, _ => [], fun s => ?_⟩
  simp only [initImageGallery]
  split
  · rw [foldl_addEventListener]
  · simp_all

theorem initTabs_appends : ∃ R : Page → List Registration,
    ∀ s, initTabs s = { s with registrations := s.registrations ++ R s.page } := by
  refine ⟨fun p =>
    match p.queryAll (hasClass "tab-btn"), p.queryAll (hasClass "tab-content") with
    | _ :: _, _ :: _ =>
      (p.queryAll (hasClass "tab-btn")).map
        (fun btn => { target := .element btn, event := "click",
                      handler := .tabClick (p.queryAll (hasClass "tab-btn"))
                        (p.queryAll (hasClass "tab-content")) btn })
    | _, _ => [], fun s => ?_⟩
  simp only [initTabs]
  split
  · rw [foldl_addEventListener]
  · simp_all

theorem initMobileMenu_appends : ∃ R : Page → List Registration,
    ∀ s, initMobileMenu s = { s with registrations := s.registrations ++ R s.page } := by
  refine ⟨fun p =>
    match p.query (fun e => e.idAttr == "mobile-menu-btn"),
        p.query (fun e => e.idAttr == "mobile-menu") with
    | some mobileMenuBtn, some mobileMenu =>
      [{ target := .element mobileMenuBtn, event := "click",
         handler := .openMobileMenu mobileMenu (p.query (fun e => e.idAttr == "mobile-overlay")) }]
      ++ (match p.query (fun e => e.idAttr == "mobile-menu-close") with
          | some close =>
            [{ target := .element close, event := "click",
               handler := .closeMobileMenu mobileMenu
                 (p.query (fun e => e.idAttr == "mobile-overlay")) }]
          | none => [])
      ++ (match p.query (fun e => e.idAttr == "mobile-overlay") with
          | some overlay =>
            [{ target := .element overlay, event := "click",
               handler := .closeMobileMenu mobileMenu
                 (p.query (fun e => e.idAttr == "mobile-overlay")) }]
          | none => [])
      ++ [{ target := .document, event := "keydown",
            handler := .escapeKey mobileMenu (p.query (fun e => e.idAttr == "mobile-overlay")) }]
      ++ (p.queryAll (fun e => p.within "mobile-menu-nav" e && e.tag == "a")).map
          (fun link => { target := .element link, event := "click",
                         handler := .navLinkClick mobileMenu
                           (p.query (fun e => e.idAttr == "mobile-overlay")) })
    | _, _ => [], fun s => ?_⟩
  simp only [initMobileMenu]
  split
  · rename_i btn menu hb hm
    simp only [hb, hm, foldl_addEventListener]
    cases s.page.query (fun e => e.idAttr == "mobile-menu-close") <;>
      cases s.page.query (fun e => e.idAttr == "mobile-overlay") <;>
      simp [Site.addEventListener]
  · simp_all

theorem initCountdown_found (host : Host) (s : Site) (i : Nat)
    (h : s.page.query (fun e => e.idAttr == "countdown-timer") = some i) :
    initCountdown host s =
      { page := updateCountdown (dateTime host.parse ((s.page.elem i).dataset.lookup "target"))
          (host.clock s.page.now) s.page
        registrations := s.registrations
        intervals := s.intervals ++
          [{ start := s.page.now, delay := 1000,
             targetDate := dateTime host.parse ((s.page.elem i).dataset.lookup "target") }] } := by
  simp only [initCountdown, h, (updateCountdown_erased _ _ s.page).1]

theorem initCountdown_twice (host : Host) (s : Site) (i : Nat)
    (h : s.page.query (fun e => e.idAttr == "countdown-timer") = some i) :
    initCountdown host (initCountdown host s) =
      { page := updateCountdown (dateTime host.parse ((s.page.elem i).dataset.lookup "target"))
          (host.clock s.page.now) s.page
        registrations := s.registrations
        intervals := s.intervals ++
          [{ start := s.page.now, delay := 1000,
             targetDate := dateTime host.parse ((s.page.elem i).dataset.lookup "target") },
           { start := s.page.now, delay := 1000,
             targetDate := dateTime host.parse ((s.page.elem i).dataset.lookup "target") }] } := by
  have her := updateCountdown_erased
    (dateTime host.parse ((s.page.elem i).dataset.lookup "target")) (host.clock s.page.now) s.page
  have hq : (initCountdown host s).page.query (fun e => e.idAttr == "countdown-timer") = some i := by
    rw [initCountdown_found host s i h]
    exact (query_of_erased s.page _ (fun e => e.idAttr == "countdown-timer")
      (fun _ _ => rfl) her.2).trans h
  rw [initCountdown_found host _ i hq, initCountdown_found host s i h]
  simp only [dataset_of_erased s.page _ i her.2, her.1, updateCountdown_again,
    List.append_assoc, List.singleton_append]

theorem initCart_twice_eq (p : Page) :
    initCart (initCart p) = { initCart p with
      listeners := (initCart p).listeners ++ (initCart p).listeners.drop p.listeners.length } := by
  have h1 := initCart_eq p
  have h2 := initCart_eq (initCart p)
  have hq : ∀ q, (initCart p).query q = p.query q := fun q => by rw [h1]; rfl
  have hc : (initCart p).cardButtons = p.cardButtons := by rw [h1]; rfl
  have he : ∀ i, (initCart p).elem i = p.elem i := fun i => by rw [h1]; rfl
  simp only [hq, hc, he] at h2
  have hl := congrArg Page.listeners h1
  simp only [List.append_assoc] at hl
  rw [h2]
  congr 1
  rw [hl, List.drop_left]
  simp only [List.append_assoc]

theorem initCart_twice_iff (p : Page) : initCart (initCart p) = initCart p ↔ initCart p = p := by
  constructor
  · intro h
    have h1 := congrArg Page.listeners h
    rw [initCart_twice_eq] at h1
    have hnil : (initCart p).listeners.drop p.listeners.length = [] :=
      List.append_right_eq_self.1 h1
    have hl : (initCart p).listeners = p.listeners := by
      have h2 := initCart_eq p
      have h3 := congrArg Page.listeners h2
      simp only [List.append_assoc] at h3
      rw [h3, List.drop_left] at hnil
      rw [h3, hnil, List.append_nil]
    have h2 := initCart_eq p
    have h3 := congrArg Page.listeners h2
    simp only at h3
    rw [h2, ← h3, hl]
  · intro h
    rw [h, h]

theorem tick_initCountdown_twice (host : Host) (s : Site) (t : Nat) :
    (initCountdown host (initCountdown host s)).tick host t
      = (initCountdown host s).tick host t := by
  cases h : s.page.query (fun e => e.idAttr == "countdown-timer") with
  | none =>
    have h0 : initCountdown host s = s := by simp only [initCountdown, h]
    rw [h0, h0]
  | some i =>
    rw [initCountdown_twice host s i h, initCountdown_found host s i h]
    simp only [Site.tick, Site.countdownRuns, List.filter_append, List.map_append,
      List.foldl_append]
    by_cases hf : Interval.firesAt
        { start := s.page.now, delay := 1000,
          targetDate := dateTime host.parse ((s.page.elem i).dataset.lookup "target") } t = true
    · simp only [List.filter_cons, hf, if_true, List.filter_nil, List.map_cons, List.map_nil,
        List.foldl_cons, List.foldl_nil, updateCountdown_again]
    · simp [List.filter_cons, hf]

theorem firesAt_from_load (td : JSNumber) (t : Nat) :
    Interval.firesAt { start := 0, delay := 1000, targetDate := td } t
      = decide (0 < t ∧ t % 1000 = 0) := by
  by_cases h : t % 1000 = 0 <;> simp [Interval.firesAt, h]

/-- A click runs twice as many listeners when every listener is registered twice. -/
theorem clickListeners_append_self (q : Page) (b : Nat) (L : List (Nat × Listener)) :
    (({ q with listeners := L ++ L } : Page).clickListeners b).length
      = 2 * (({ q with listeners := L } : Page).clickListeners b).length := by
  unfold Page.clickListeners
  have hp : ({ q with listeners := L ++ L } : Page).clickPath b
      = ({ q with listeners := L } : Page).clickPath b := rfl
  rw [hp]
  generalize ({ q with listeners := L } : Page).clickPath b = path
  induction path with
  | nil => rfl
  | cons i rest ih =>
    simp only [List.flatMap_cons, List.length_append, ih]
    simp only [Page.listenersOn, List.filter_append, List.map_append, List.length_append,
      List.length_map]
    omega

theorem click_after_initCart_twice (p : Page) (b : Nat) (hp : p.listeners = [])
    (hle : p.cartCount + 2 * ((initCart p).clickListeners b).length ≤ 9007199254740992) :
    ((initCart (initCart p)).clickListeners b).length
        = 2 * ((initCart p).clickListeners b).length ∧
    (click b (initCart (initCart p))).cartCount
        = p.cartCount + 2 * ((initCart p).clickListeners b).length := by
  have h2 : ((initCart (initCart p)).clickListeners b).length
      = 2 * ((initCart p).clickListeners b).length := by
    rw [initCart_twice_eq, hp, List.length_nil, List.drop_zero]
    exact clickListeners_append_self (initCart p) b (initCart p).listeners
  have hc : (initCart (initCart p)).cartCount = p.cartCount := by
    rw [initCart_cartCount, initCart_cartCount]
  refine ⟨h2, ?_⟩
  rw [click_cartCount _ _ (by rw [hc, h2]; exact hle), hc, h2]

/-- A second run of `initCountdown`, at whatever time it follows the first: it writes the
fields for its own clock reading and sets a second interval, which starts then. -/
theorem initCountdown_later (host : Host) (s : Site) (i : Nat)
    (h : s.page.query (fun e => e.idAttr == "countdown-timer") = some i) (t : Nat) :
    initCountdown host ((initCountdown host s).atTime t) =
      { page := updateCountdown (dateTime host.parse ((s.page.elem i).dataset.lookup "target"))
          (host.clock (max s.page.now t)) ((initCountdown host s).atTime t).page
        registrations := s.registrations
        intervals := s.intervals ++
          [{ start := s.page.now, delay := 1000,
             targetDate := dateTime host.parse ((s.page.elem i).dataset.lookup "target") },
           { start := max s.page.now t, delay := 1000,
             targetDate := dateTime host.parse ((s.page.elem i).dataset.lookup "target") }] } := by
  have her := updateCountdown_erased
    (dateTime host.parse ((s.page.elem i).dataset.lookup "target")) (host.clock s.page.now) s.page
  have hpage : ((initCountdown host s).atTime t).page
      = { updateCountdown (dateTime host.parse ((s.page.elem i).dataset.lookup "target"))
            (host.clock s.page.now) s.page with now := max s.page.now t } := by
    rw [initCountdown_found host s i h]
    simp only [Site.atTime, her.1]
  have helems : ((initCountdown host s).atTime t).page.elems.map (setText "")
      = s.page.elems.map (setText "") := by
    rw [hpage]
    exact her.2
  have hq : ((initCountdown host s).atTime t).page.query (fun e => e.idAttr == "countdown-timer")
      = some i :=
    (query_of_erased s.page _ (fun e => e.idAttr == "countdown-timer")
      (fun _ _ => rfl) helems).trans h
  have hnow : ((initCountdown host s).atTime t).page.now = max s.page.now t := by
    rw [hpage]
  have hreg : ((initCountdown host s).atTime t).registrations = s.registrations := by
    rw [initCountdown_found host s i h]
    rfl
  have hint : ((initCountdown host s).atTime t).intervals = s.intervals ++
      [{ start := s.page.now, delay := 1000,
         targetDate := dateTime host.parse ((s.page.elem i).dataset.lookup "target") }] := by
    rw [initCountdown_found host s i h]
    rfl
  rw [initCountdown_found host _ i hq, hnow, hreg, hint,
    dataset_of_erased s.page _ i helems]
  simp only [List.append_assoc, List.singleton_append]

/-- The runs of `updateCountdown` after two runs of `initCountdown` on the page as loaded,
the second at page time `t`: one at every full second, and one at every full second after
`t`. -/
theorem countdownRuns_after_load (host : Host) (elems : List Element) (i : Nat)
    (h : (Page.load elems).query (fun e => e.idAttr == "countdown-timer") = some i) (t u : Nat) :
    (initCountdown host (Site.load elems)).countdownRuns u
        = (if 0 < u ∧ u % 1000 = 0 then
            [dateTime host.parse (((Page.load elems).elem i).dataset.lookup "target")]
          else []) ∧
    (initCountdown host ((initCountdown host (Site.load elems)).atTime t)).countdownRuns u
        = (if 0 < u ∧ u % 1000 = 0 then
            [dateTime host.parse (((Page.load elems).elem i).dataset.lookup "target")]
          else []) ++
          (if t < u ∧ (u - t) % 1000 = 0 then
            [dateTime host.parse (((Page.load elems).elem i).dataset.lookup "target")]
          else []) := by
  have hp : (Site.load elems).page = Page.load elems := rfl
  have hn : (Page.load elems).now = 0 := rfl
  have hi : (Site.load elems).intervals = [] := rfl
  have hf : ∀ td, Interval.firesAt { start := t, delay := 1000, targetDate := td } u
      = decide (t < u ∧ (u - t) % 1000 = 0) := by
    intro td
    by_cases h1 : t < u <;> by_cases h2 : (u - t) % 1000 = 0 <;> simp [Interval.firesAt, h1, h2]
  rw [initCountdown_later host (Site.load elems) i (by rw [hp]; exact h),
    initCountdown_found host (Site.load elems) i (by rw [hp]; exact h)]
  simp only [hp, hn, hi, List.nil_append, Site.countdownRuns, List.filter_cons,
    firesAt_from_load, List.filter_nil, Nat.zero_max, hf]
  by_cases ht : 0 < u ∧ u % 1000 = 0 <;> by_cases ht2 : t < u ∧ (u - t) % 1000 = 0 <;>
    simp [ht, ht2]

/-- C12, as the code has it: no initializer looks for what an earlier run registered.
A second run of `initSearchBar`, `initViewToggles`, `initImageGallery`, `initTabs` or
`initMobileMenu` leaves the page as the first run left it and registers every listener of
the first run once more, and a second run of `initCart` keeps the elements and the counter
and registers each of its click listeners once more; so two runs end in the state of one
exactly on a document where one run changes nothing. After two runs of `initCart` on a page
without cart listeners a click runs twice the listeners it runs after one run, on the
element clicked and on the elements it lies in, and adds 1 for each (the counter staying
within 2^53). A second run of `initCountdown` (with `#countdown-timer` present), at
whatever page time `t` it follows the first, registers no listener, writes the fields for
its own clock reading and sets a second interval, never clearing the first. After two runs
on the page as loaded `updateCountdown` therefore runs at every full second and at every
full second after `t`: twice a second, and twice at the same instant when `t` is 0; in
that case the second of the two runs changes nothing, so the page after every tick is the
same as with one interval. -/
theorem init_twice_registers_twice (host : Host) (s : Site) (p : Page) (elems : List Element) :
    (∀ f ∈ [initSearchBar, initViewToggles, initImageGallery, initTabs, initMobileMenu],
      SecondRunRepeats f s) ∧
    ((initCart (initCart p)).elems = (initCart p).elems ∧
      (initCart (initCart p)).cartCount = (initCart p).cartCount ∧
      (initCart (initCart p)).listeners
        = (initCart p).listeners ++ (initCart p).listeners.drop p.listeners.length ∧
      (initCart (initCart p) = initCart p ↔ initCart p = p)) ∧
    (∀ b, p.listeners = [] →
      p.cartCount + 2 * ((initCart p).clickListeners b).length ≤ 9007199254740992 →
      ((initCart (initCart p)).clickListeners b).length
        = 2 * ((initCart p).clickListeners b).length ∧
      (click b (initCart (initCart p))).cartCount
        = p.cartCount + 2 * ((initCart p).clickListeners b).length) ∧
    (∀ i, s.page.query (fun e => e.idAttr == "countdown-timer") = some i → ∀ t,
      (initCountdown host s).intervals = s.intervals ++
        [{ start := s.page.now, delay := 1000,
           targetDate := dateTime host.parse ((s.page.elem i).dataset.lookup "target") }] ∧
      (initCountdown host ((initCountdown host s).atTime t)).page
        = updateCountdown (dateTime host.parse ((s.page.elem i).dataset.lookup "target"))
            (host.clock (max s.page.now t)) ((initCountdown host s).atTime t).page ∧
      (initCountdown host ((initCountdown host s).atTime t)).registrations = s.registrations ∧
      (initCountdown host ((initCountdown host s).atTime t)).intervals = s.intervals ++
        [{ start := s.page.now, delay := 1000,
           targetDate := dateTime host.parse ((s.page.elem i).dataset.lookup "target") },
         { start := max s.page.now t, delay := 1000,
           targetDate := dateTime host.parse ((s.page.elem i).dataset.lookup "target") }] ∧
      initCountdown host ((initCountdown host s).atTime t) ≠ (initCountdown host s).atTime t) ∧
    (∀ i, (Page.load elems).query (fun e => e.idAttr == "countdown-timer") = some i →
      ∀ t u, (initCountdown host (Site.load elems)).countdownRuns u
            = (if 0 < u ∧ u % 1000 = 0 then
                [dateTime host.parse (((Page.load elems).elem i).dataset.lookup "target")]
              else []) ∧
          (initCountdown host ((initCountdown host (Site.load elems)).atTime t)).countdownRuns u
            = (if 0 < u ∧ u % 1000 = 0 then
                [dateTime host.parse (((Page.load elems).elem i).dataset.lookup "target")]
              else []) ++
              (if t < u ∧ (u - t) % 1000 = 0 then
                [dateTime host.parse (((Page.load elems).elem i).dataset.lookup "target")]
              else [])) ∧
    (∀ t, (initCountdown host (initCountdown host s)).tick host t
        = (initCountdown host s).tick host t) := by
  refine ⟨?_, ⟨?_, ?_, ?_, initCart_twice_iff p⟩,
    fun b hp hle => click_after_initCart_twice p b hp hle, fun i h t => ?_,
    fun i h t u => countdownRuns_after_load host elems i h t u, tick_initCountdown_twice host s⟩
  · intro f hf
    simp only [List.mem_cons, List.mem_singleton, List.not_mem_nil, or_false] at hf
    rcases hf with rfl | rfl | rfl | rfl | rfl
    · obtain ⟨R, hR⟩ := initSearchBar_appends
      exact secondRunRepeats_of_appends _ R hR s
    · obtain ⟨R, hR⟩ := initViewToggles_appends
      exact secondRunRepeats_of_appends _ R hR s
    · obtain ⟨R, hR⟩ := initImageGallery_appends
      exact secondRunRepeats_of_appends _ R hR s
    · obtain ⟨R, hR⟩ := initTabs_appends
      exact secondRunRepeats_of_appends _ R hR s
    · obtain ⟨R, hR⟩ := initMobileMenu_appends
      exact secondRunRepeats_of_appends _ R hR s
  · rw [initCart_twice_eq]
  · rw [initCart_twice_eq]
  · rw [initCart_twice_eq]
  · have h1 := initCountdown_found host s i h
    have h2 := initCountdown_later host s i h t
    refine ⟨by rw [h1], by rw [h2], by rw [h2], by rw [h2], fun heq => ?_⟩
    have hlen := congrArg (fun x => x.intervals.length) heq
    rw [h2] at hlen
    simp only [Site.atTime] at hlen
    rw [h1] at hlen
    simp at hlen

theorem init_twice_registers_twice_witness :
    (click 0 (initCart (initCart shopPage))).cartCount = 5 ∧
    (initCountdown demoHost
      ((initCountdown demoHost (Site.load salePage.elems)).atTime 0)).countdownRuns 3000
      = [JSNumber.int 1700007324000, JSNumber.int 1700007324000] ∧
    (initCountdown demoHost
      ((initCountdown demoHost (Site.load salePage.elems)).atTime 500)).countdownRuns 3500
      = [JSNumber.int 1700007324000] :=
  have h := init_twice_registers_twice demoHost (Site.load salePage.elems) shopPage salePage.elems
  ⟨(h.2.2.1 0 (by decide) (by decide)).2, (h.2.2.2.2.1 0 (by decide) 0 3000).2,
    (h.2.2.2.2.1 0 (by decide) 500 3500).2⟩

/-- C12 fails for `initCart`: on the product page one run leaves one click listener on
the add-to-cart button and a click takes the counter from 3 to 4; a second run leaves a
second listener on it, and one click then takes the counter from 3 to 5, which the
badge shows. The state after two runs is not the state after one. -/
theorem initCart_twice_click_adds_two :
    (click 0 (initCart shopPage)).cartCount = 4 ∧
    (initCart (initCart shopPage)).clickListeners 0
      = [Listener.addToCart (some 3), Listener.addToCart (some 3)] ∧
    (click 0 (initCart (initCart shopPage))).cartCount = 5 ∧
    ((click 0 (initCart (initCart shopPage))).elem 3).textContent = "5" ∧
    initCart (initCart shopPage) ≠ initCart shopPage := by
  decide

theorem digitChar_isDigit (k : Nat) (h : k < 10) : (Nat.digitChar k).isDigit = true := by
  interval_cases k <;> rfl

theorem digitChar_value (k : Nat) (h : k < 10) : (Nat.digitChar k).toNat - '0'.toNat = k := by
  interval_cases k <;> rfl

theorem toDigitsCore_isDigit : ∀ (fuel n : Nat) (ds : List Char),
    (∀ c ∈ ds, c.isDigit = true) → ∀ c ∈ Nat.toDigitsCore 10 fuel n ds, c.isDigit = true := by
  intro fuel
  induction fuel with
  | zero => intro n ds h; simpa [Nat.toDigitsCore] using h
  | succ f ih =>
    intro n ds h
    have hd : ∀ c ∈ Nat.digitChar (n % 10) :: ds, c.isDigit = true := by
      intro c hc
      rcases List.mem_cons.1 hc with rfl | hc
      · exact digitChar_isDigit _ (Nat.mod_lt _ (by decide))
      · exact h c hc
    simp only [Nat.toDigitsCore]
    split
    · exact hd
    · exact ih _ _ hd

theorem toDigitsCore_value : ∀ (fuel n : Nat) (ds : List Char), n < fuel →
    (Nat.toDigitsCore 10 fuel n ds).foldl (fun acc c => 10 * acc + (c.toNat - '0'.toNat)) 0
      = ds.foldl (fun acc c => 10 * acc + (c.toNat - '0'.toNat)) n := by
  intro fuel
  induction fuel with
  | zero => intro n ds h; omega
  | succ f ih =>
    intro n ds h
    simp only [Nat.toDigitsCore]
    split
    · rename_i h0
      simp only [List.foldl_cons, digitChar_value _ (Nat.mod_lt n (by decide : 0 < 10))]
      congr 1
      omega
    · rename_i h0
      rw [ih _ _ (by omega)]
      simp only [List.foldl_cons, digitChar_value _ (Nat.mod_lt n (by decide : 0 < 10))]
      congr 1
      omega

theorem toDigitsCore_length_ge : ∀ (fuel n : Nat) (ds : List Char),
    ds.length + 1 ≤ (Nat.toDigitsCore 10 (fuel + 1) n ds).length := by
  intro fuel
  induction fuel with
  | zero => intro n ds; simp [Nat.toDigitsCore]
  | succ f ih =>
    intro n ds
    rw [Nat.toDigitsCore]
    split
    · simp
    · have := ih (n / 10) (Nat.digitChar (n % 10) :: ds)
      simp only [List.length_cons] at this
      omega

theorem toString_nat_data (n : Nat) : (toString n).data = Nat.toDigits 10 n := rfl

theorem toString_length_large (n : Nat) (h : 100 ≤ n) : 3 ≤ (toString n).length := by
  show 3 ≤ (Nat.toDigits 10 n).length
  obtain ⟨m, rfl⟩ : ∃ m, n = m + 2 := ⟨n - 2, by omega⟩
  unfold Nat.toDigits
  rw [Nat.toDigitsCore]
  rw [if_neg (by omega)]
  rw [Nat.toDigitsCore]
  rw [if_neg (by omega)]
  have := toDigitsCore_length_ge m ((m + 2) / 10 / 10)
    [Nat.digitChar ((m + 2) / 10 % 10), Nat.digitChar ((m + 2) % 10)]
  simpa using this

theorem padStart_data (k : Nat) (pad : Char) (str : String) :
    (padStart k pad str).data = List.replicate (k - str.length) pad ++ str.data := by
  simp [padStart, String.data_append]

theorem padStart_length (k : Nat) (pad : Char) (str : String) :
    (padStart k pad str).length = max k str.length := by
  simp only [padStart, String.length_append, String.length_mk, List.length_replicate]
  omega

theorem padStart_isDigit (n : Nat) :
    ∀ c ∈ (padStart 2 '0' (toString n)).data, c.isDigit = true := by
  intro c hc
  rw [padStart_data, List.mem_append] at hc
  rcases hc with hc | hc
  · rw [List.eq_of_mem_replicate hc]
    rfl
  · rw [toString_nat_data] at hc
    exact toDigitsCore_isDigit _ _ [] (fun _ h => by cases h) c hc

theorem foldl_replicate_zero (k : Nat) :
    (List.replicate k '0').foldl (fun acc c => 10 * acc + (c.toNat - '0'.toNat)) 0 = 0 := by
  induction k with
  | zero => rfl
  | succ k ih => simpa [List.replicate_succ] using ih

theorem decimalValue_padStart (n : Nat) : decimalValue (padStart 2 '0' (toString n)) = n := by
  unfold decimalValue
  rw [padStart_data, List.foldl_append, foldl_replicate_zero, toString_nat_data]
  exact toDigitsCore_value (n + 1) n [] (Nat.lt_succ_self n)

theorem padStart_two_digits (n : Nat) (h : n < 100) :
    padStart 2 '0' (toString n) = String.mk [Nat.digitChar (n / 10), Nat.digitChar (n % 10)] := by
  interval_cases n <;> rfl

theorem padStart_length_two (n : Nat) (h : n < 100) : (padStart 2 '0' (toString n)).length = 2 := by
  rw [padStart_two_digits n h]
  rfl

theorem padStart_length_gt (n : Nat) : 2 < (padStart 2 '0' (toString n)).length ↔ 100 ≤ n := by
  constructor
  · intro hl
    by_contra hn
    rw [padStart_length_two n (by omega)] at hl
    omega
  · intro hn
    rw [padStart_length]
    have := toString_length_large n hn
    omega

/-- C13: for a distance `d ≥ 0` the four values `updateCountdown` computes are natural
numbers `days`, `hours`, `minutes`, `seconds` with `hours < 24`, `minutes < 60`,
`seconds < 60` and
`days * 86400000 + hours * 3600000 + minutes * 60000 + seconds * 1000 + d mod 1000 = d`;
each of the fields `#days`, `#hours`, `#minutes`, `#seconds` that exists then shows
`String(value).padStart(2, '0')`; that text consists of decimal digits, is the numeral of
the value, and has at least two characters; for hours, minutes and seconds it has
exactly two, and for days it has more than two exactly when `days ≥ 100`. (A distance
of the script is the difference of two time values and stays below 2^53, where the
doubles of the script and the integers of the model agree.) -/
theorem countdown_fields_numerals (d : Int) (hd : 0 ≤ d) :
    ∃ days hours minutes seconds : Nat,
      (JSNumber.int d).floorDiv (1000 * 60 * 60 * 24) = .int days ∧
      ((JSNumber.int d).mod (1000 * 60 * 60 * 24)).floorDiv (1000 * 60 * 60) = .int hours ∧
      ((JSNumber.int d).mod (1000 * 60 * 60)).floorDiv (1000 * 60) = .int minutes ∧
      ((JSNumber.int d).mod (1000 * 60)).floorDiv 1000 = .int seconds ∧
      hours < 24 ∧ minutes < 60 ∧ seconds < 60 ∧
      (days : Int) * 86400000 + hours * 3600000 + minutes * 60000 + seconds * 1000 + d % 1000
        = d ∧
      (∀ (clock : Int) (s : Page),
        (∀ i, s.query (fun e => e.idAttr == "days") = some i →
          ((updateCountdown (.int (clock + d)) clock s).elem i).textContent
            = padStart 2 '0' (toString days)) ∧
        (∀ i, s.query (fun e => e.idAttr == "hours") = some i →
          ((updateCountdown (.int (clock + d)) clock s).elem i).textContent
            = padStart 2 '0' (toString hours)) ∧
        (∀ i, s.query (fun e => e.idAttr == "minutes") = some i →
          ((updateCountdown (.int (clock + d)) clock s).elem i).textContent
            = padStart 2 '0' (toString minutes)) ∧
        (∀ i, s.query (fun e => e.idAttr == "seconds") = some i →
          ((updateCountdown (.int (clock + d)) clock s).elem i).textContent
            = padStart 2 '0' (toString seconds))) ∧
      (∀ v ∈ [days, hours, minutes, seconds],
        (∀ c ∈ (padStart 2 '0' (toString v)).data, c.isDigit = true) ∧
        decimalValue (padStart 2 '0' (toString v)) = v ∧
        2 ≤ (padStart 2 '0' (toString v)).length) ∧
      (padStart 2 '0' (toString hours)).length = 2 ∧
      (padStart 2 '0' (toString minutes)).length = 2 ∧
      (padStart 2 '0' (toString seconds)).length = 2 ∧
      (2 < (padStart 2 '0' (toString days)).length ↔ 100 ≤ days) := by
  have hdays : (JSNumber.int d).floorDiv (1000 * 60 * 60 * 24) = .int ((d / 86400000).toNat : Nat) := by
    show JSNumber.int (d.fdiv 86400000) = _
    rw [Int.fdiv_eq_ediv d (by decide), Int.toNat_of_nonneg (by omega)]
  have hhours : ((JSNumber.int d).mod (1000 * 60 * 60 * 24)).floorDiv (1000 * 60 * 60)
      = .int ((d % 86400000 / 3600000).toNat : Nat) := by
    show JSNumber.int ((d.tmod 86400000).fdiv 3600000) = _
    rw [Int.tmod_eq_emod hd (by decide), Int.fdiv_eq_ediv _ (by decide),
      Int.toNat_of_nonneg (by omega)]
  have hminutes : ((JSNumber.int d).mod (1000 * 60 * 60)).floorDiv (1000 * 60)
      = .int ((d % 3600000 / 60000).toNat : Nat) := by
    show JSNumber.int ((d.tmod 3600000).fdiv 60000) = _
    rw [Int.tmod_eq_emod hd (by decide), Int.fdiv_eq_ediv _ (by decide),
      Int.toNat_of_nonneg (by omega)]
  have hseconds : ((JSNumber.int d).mod (1000 * 60)).floorDiv 1000
      = .int ((d % 60000 / 1000).toNat : Nat) := by
    show JSNumber.int ((d.tmod 60000).fdiv 1000) = _
    rw [Int.tmod_eq_emod hd (by decide), Int.fdiv_eq_ediv _ (by decide),
      Int.toNat_of_nonneg (by omega)]
  have bh : (d % 86400000 / 3600000).toNat < 24 := by omega
  have bm : (d % 3600000 / 60000).toNat < 60 := by omega
  have bs : (d % 60000 / 1000).toNat < 60 := by omega
  refine ⟨(d / 86400000).toNat, (d % 86400000 / 3600000).toNat, (d % 3600000 / 60000).toNat,
    (d % 60000 / 1000).toNat, hdays, hhours, hminutes, hseconds, bh, bm, bs, by omega,
    fun clock s => ?_, fun v _ => ?_, padStart_length_two _ (by omega),
    padStart_length_two _ (by omega), padStart_length_two _ (by omega), padStart_length_gt _⟩
  · have hsub : (JSNumber.int (clock + d)).sub (.int clock) = .int d := by
      simp only [JSNumber.sub]
      congr 1
      omega
    have hlt : ((JSNumber.int (clock + d)).sub (.int clock)).lt (.int 0) = false := by
      rw [hsub]
      simp only [JSNumber.lt, decide_eq_false_iff_not]
      omega
    rw [updateCountdown_ahead _ clock s hlt, hsub, hdays, hhours, hminutes, hseconds]
    exact fields_text s _ _ _ _
  · refine ⟨padStart_isDigit v, decimalValue_padStart v, ?_⟩
    rw [padStart_length]
    omega

theorem countdown_fields_numerals_witness :
    (0 : Int) ≤ 93784005 ∧
    ((updateCountdown (.int (1700000000000 + 93784005)) 1700000000000 salePage).elem 2).textContent.length
      = 2 ∧
    ∃ days hours minutes seconds : Nat,
      (JSNumber.int 93784005).floorDiv (1000 * 60 * 60 * 24) = .int days ∧
      ((JSNumber.int 93784005).mod (1000 * 60 * 60 * 24)).floorDiv (1000 * 60 * 60) = .int hours ∧
      ((JSNumber.int 93784005).mod (1000 * 60 * 60)).floorDiv (1000 * 60) = .int minutes ∧
      ((JSNumber.int 93784005).mod (1000 * 60)).floorDiv 1000 = .int seconds ∧
      hours < 24 ∧ minutes < 60 ∧ seconds < 60 ∧
      (days : Int) * 86400000 + hours * 3600000 + minutes * 60000 + seconds * 1000
          + 93784005 % 1000 = 93784005 :=
  match countdown_fields_numerals 93784005 (by decide) with
  | ⟨days, hours, minutes, seconds, h1, h2, h3, h4, h5, h6, h7, h8, h9, _, h11, _⟩ =>
    ⟨by decide,
      ((h9 1700000000000 salePage).2.1 2 (by decide)).symm ▸ h11,
      days, hours, minutes, seconds, h1, h2, h3, h4, h5, h6, h7, h8⟩

end Storefront
